import Mathlib

/-!
Verification development for the cv_poc document-verification engine.

The Python sources are shallowly embedded:

* `src/services/document_verifier.py` — the strict fuzzy-ratio path
  (`fuzzy_match_name`, `exact_match_dob`, `compare_documents`,
  `verify_worker_documents`, `extract_verification_errors`).
* `src/services/document_verification.py` — the lenient path
  (`normalize_name`, `extract_first_last_name`, `normalize_dob`,
  `compare_names`, `compare_dobs`, `verify_documents`).
* `src/api/document_endpoints.py` — the extraction pipeline from the OCR
  stage onward, with persistence calls reified as records.

Conventions of the embedding:

* Python `str` is Lean `String` (a list of characters); the string helpers
  `strip` / `lower` / `split` are modelled over ASCII text, which covers
  every literal appearing in the sources.
* A document dict is `Option Doc`: `none` is a falsy value (Python `None`
  or the empty dict `{}` — the sources only ever test truthiness), `some`
  a truthy dict whose relevant fields are `FieldVal`s.
* A field value is `FieldVal`: `missing` (key absent), `null` (key present
  with value `None`) or `str s`.
* Python floats for similarity scores and thresholds are modelled as `ℚ`.
  Every score actually produced is `p / 100` with `p : ℕ`, for which the
  `round(x, 3)` and `"{:.2%}"` operations of the source are exact, so no
  binary-float rounding is observable in the modelled quantities.
* `fuzz.ratio` of the external fuzzywuzzy library is an integer-valued
  black-box collaborator: the functions that call it take it as an explicit
  `ratio : String → String → ℕ` parameter.
* A Python function that can raise returns `Except PyError`.
-/

/-- Python whitespace for `str.strip` / `str.split` / the regex class `\s`
(ASCII part: space, tab, newline, carriage return, vertical tab, form feed). -/
def pySpace (c : Char) : Bool :=
  c = ' ' || c = '\t' || c = '\n' || c = '\r' || c = '\x0b' || c = '\x0c'

/-- `str.strip()` on a list of characters: drop leading and trailing whitespace. -/
def stripChars (cs : List Char) : List Char :=
  ((cs.dropWhile pySpace).reverse.dropWhile pySpace).reverse

/-- `str.strip()`. -/
def pyStrip (s : String) : String := String.mk (stripChars s.data)

/-- `str.lower()` (ASCII). -/
def pyLower (s : String) : String := String.mk (s.data.map Char.toLower)

/-- One pass of `str.split()`: accumulate maximal runs of non-whitespace. -/
def splitChars : List Char → List Char → List String
  | [], acc => if acc = [] then [] else [String.mk acc.reverse]
  | c :: rest, acc =>
    if pySpace c then
      (if acc = [] then [] else [String.mk acc.reverse]) ++ splitChars rest []
    else
      splitChars rest (c :: acc)

/-- `str.split()` with no argument: split on whitespace runs, dropping empties. -/
def pySplit (s : String) : List String := splitChars s.data []

/-- `" ".join(x.split())`: collapse internal whitespace to single spaces
(equals `re.sub(r"\s+", " ", x)` whenever `x` carries no leading or trailing
whitespace, which is how the source uses that substitution). -/
def joinWords (ws : List String) : String := String.intercalate " " ws

/-- A Python dict field relevant to comparison: absent key, `None` value, or a
string value. -/
inductive FieldVal where
  | missing : FieldVal
  | null : FieldVal
  | str : String → FieldVal
deriving DecidableEq, Repr

/-- `d.get(key) or ""`: missing and `None` give `None`, which `or ""` turns into
`""`; a falsy empty string also gives `""` (equal to itself). -/
def FieldVal.getOr : FieldVal → String
  | .missing => ""
  | .null => ""
  | .str s => s

/-- The error raised by calling a `str` method on `None`. -/
inductive PyError where
  | attributeError : String → PyError
deriving DecidableEq, Repr

/-- `d.get(key, "").strip()`: a key holding `None` escapes the default and the
subsequent `.strip()` raises `AttributeError`. -/
def FieldVal.getStrip : FieldVal → Except PyError String
  | .missing => .ok ""
  | .null => .error (.attributeError "NoneType object has no attribute strip")
  | .str s => .ok (pyStrip s)

/-! ## `src/services/document_verifier.py` -/

/-- Lines 9-28, `fuzzy_match_name(name1, name2, threshold=0.85)`.
`ratio` models the external `fuzz.ratio` collaborator (0-100 integer). -/
def fuzzy_match_name (ratio : String → String → ℕ) (name1 name2 : String)
    (threshold : ℚ) : ℚ × Bool :=
  if name1 = "" || name2 = "" then (0, false)
  else
    let n1 := joinWords (pySplit (pyLower (pyStrip name1)))
    let n2 := joinWords (pySplit (pyLower (pyStrip name2)))
    let similarity_score : ℚ := (ratio n1 n2 : ℚ) / 100
    (similarity_score, similarity_score ≥ threshold)

/-- Gregorian leap year, as `datetime.date` validates it. -/
def isLeap (y : ℕ) : Bool := y % 4 = 0 && (y % 100 ≠ 0 || y % 400 = 0)

/-- Days in a month for `datetime.date` validation. -/
def daysInMonth (y m : ℕ) : ℕ :=
  if m = 2 then (if isLeap y then 29 else 28)
  else if m = 4 || m = 6 || m = 9 || m = 11 then 30
  else 31

/-- The digit value of a digit character. -/
def digVal (c : Char) : ℕ := c.toNat - 48

/-- Value of a list of digit characters, most significant first. -/
def digitsVal (cs : List Char) : ℕ := cs.foldl (fun a c => 10 * a + digVal c) 0

/-- `datetime.strptime(s, "%Y-%m-%d")` followed by `.date()`: `%Y` takes 1-4
digits, `%m` and `%d` take 1-2 digits, the whole string must be consumed, and
`datetime` validates 1 ≤ year ≤ 9999, 1 ≤ month ≤ 12, 1 ≤ day ≤ days in the
month. Returns the `(year, month, day)` triple. -/
def parseYMD (s : String) : Option (ℕ × ℕ × ℕ) :=
  let parts := s.data.splitOn '-'
  match parts with
  | [ys, ms, ds] =>
    if ys ≠ [] && ys.length ≤ 4 && ys.all Char.isDigit &&
       ms ≠ [] && ms.length ≤ 2 && ms.all Char.isDigit &&
       ds ≠ [] && ds.length ≤ 2 && ds.all Char.isDigit then
      let y := digitsVal ys
      let m := digitsVal ms
      let d := digitsVal ds
      if 1 ≤ y && 1 ≤ m && m ≤ 12 && 1 ≤ d && d ≤ daysInMonth y m then
        some (y, m, d)
      else none
    else none
  | _ => none

/-- Lines 31-51, `exact_match_dob(dob1, dob2)`: strict `YYYY-MM-DD` parsing of
both stripped inputs, `False` on any parse failure, else calendar-date
equality. -/
def exact_match_dob (dob1 dob2 : String) : Bool :=
  if dob1 = "" || dob2 = "" then false
  else
    match parseYMD (pyStrip dob1), parseYMD (pyStrip dob2) with
    | some date1, some date2 => date1 = date2
    | _, _ => false

/-- A truthy document dict as the comparator reads it: the two fields it
consults. A dict with both fields `missing` models a truthy dict whose keys
are all irrelevant to comparison. -/
structure Doc where
  name : FieldVal
  date_of_birth : FieldVal
deriving DecidableEq, Repr

/-- One sub-match dict of a `ComparisonResult`; keys that a branch does not
set are `none`. -/
structure SubMatch where
  doc1_value : Option String := none
  doc2_value : Option String := none
  similarity : Option ℚ := none
  threshold : Option ℚ := none
  status : Option String := none
  reason : Option String := none
  passed : Bool
deriving DecidableEq, Repr

/-- The dict returned by `compare_documents`. -/
structure CompareResult where
  status : String
  name_match : SubMatch
  dob_match : SubMatch
  issues : List String
deriving DecidableEq, Repr

/-- `round(x, 3)`: for the scores this code produces (`p / 100` with `p : ℕ`)
the operation is exact, so any tie-breaking convention agrees; `round` here is
round-half-up on `ℚ`. -/
def round3 (q : ℚ) : ℚ := (round (q * 1000) : ℤ) / 1000

/-- Render `n` as at least two digits (`str` of a natural, zero-padded). -/
def pad2 (n : ℕ) : String :=
  String.mk [Char.ofNat (48 + n / 10 % 10), Char.ofNat (48 + n % 10)]

/-- Python `"{:.2%}".format(q)`: percentage with two decimals. Exact for the
produced scores `p / 100` (then `q * 10000` is the integer `p * 100`). -/
def fmtPercent (q : ℚ) : String :=
  let cents : ℤ := round (q * 10000)
  toString (cents / 100) ++ "." ++ pad2 (cents % 100).toNat ++ "%"

/-- Lines 54-133, `compare_documents(doc1, doc2, doc1_label, doc2_label,
comparison_type, name_threshold=0.85)`. The two label arguments and the
comparison type only feed log lines and are omitted. -/
def compare_documents (ratio : String → String → ℕ) (doc1 doc2 : Option Doc)
    (name_threshold : ℚ) : CompareResult :=
  match doc1, doc2 with
  | some d1, some d2 =>
    let name1 := d1.name.getOr
    let name2 := d2.name.getOr
    let nm : SubMatch × Bool × List String :=
      if name1 ≠ "" && name2 ≠ "" then
        let sim := fuzzy_match_name ratio name1 name2 name_threshold
        let similarity := sim.1
        let is_match := sim.2
        (⟨some name1, some name2, some (round3 similarity), some name_threshold,
          some (if is_match then "PASSED" else "FAILED"), none, is_match⟩,
         is_match,
         if is_match then [] else
           ["Name mismatch: '" ++ name1 ++ "' vs '" ++ name2 ++
            "' (similarity: " ++ fmtPercent similarity ++ ")"])
      else
        (⟨none, none, none, none, some "SKIPPED",
          some "Missing names in one or both documents", true⟩, true, [])
    let dob1 := d1.date_of_birth.getOr
    let dob2 := d2.date_of_birth.getOr
    let dm : SubMatch × Bool × List String :=
      if dob1 ≠ "" && dob2 ≠ "" then
        let is_match := exact_match_dob dob1 dob2
        (⟨some dob1, some dob2, none, none,
          some (if is_match then "PASSED" else "FAILED"), none, is_match⟩,
         is_match,
         if is_match then [] else ["DOB mismatch: " ++ dob1 ++ " vs " ++ dob2])
      else
        (⟨none, none, none, none, some "SKIPPED",
          some "Missing DOB in one or both documents", true⟩, true, [])
    { status := if nm.2.1 && dm.2.1 then "verified" else "failed"
      name_match := nm.1
      dob_match := dm.1
      issues := nm.2.2 ++ dm.2.2 }
  | _, _ =>
    { status := "failed"
      name_match := ⟨none, none, none, none, some "No data", none, false⟩
      dob_match := ⟨none, none, none, none, some "No data", none, false⟩
      issues := ["Missing document data for comparison"] }

/-- One entry of `VerificationResult.comparisons`. -/
structure CompEntry where
  type : String
  status : String
  details : CompareResult
deriving DecidableEq, Repr

/-- The dict returned by `verify_worker_documents`. -/
structure VerificationResult where
  overall_status : String
  documents_count : ℕ
  comparisons : List CompEntry
  errors : List String
deriving DecidableEq, Repr

/-- Lines 136-225, `verify_worker_documents(personal, edu_10th, edu_12th,
name_threshold=0.85)`. -/
def verify_worker_documents (ratio : String → String → ℕ)
    (personal edu_10th edu_12th : Option Doc) (name_threshold : ℚ) :
    VerificationResult :=
  let documents_count :=
    (if personal.isSome then 1 else 0) + (if edu_10th.isSome then 1 else 0) +
    (if edu_12th.isSome then 1 else 0)
  if documents_count < 2 then
    { overall_status := "incomplete"
      documents_count := documents_count
      comparisons := []
      errors := ["Need at least 2 documents for verification"] }
  else
    let c1 : List CompEntry :=
      if personal.isSome && edu_10th.isSome then
        let comp := compare_documents ratio personal edu_10th name_threshold
        [⟨"personal_vs_10th", comp.status, comp⟩]
      else []
    let c2 : List CompEntry :=
      if personal.isSome && edu_12th.isSome then
        let comp := compare_documents ratio personal edu_12th name_threshold
        [⟨"personal_vs_12th", comp.status, comp⟩]
      else []
    let c3 : List CompEntry :=
      if edu_10th.isSome && edu_12th.isSome then
        let comp := compare_documents ratio edu_10th edu_12th name_threshold
        [⟨"10th_vs_12th", comp.status, comp⟩]
      else []
    let comparisons := c1 ++ c2 ++ c3
    let comparisons_failed := (comparisons.filter (fun c => c.status = "failed")).length
    { overall_status :=
        if comparisons_failed > 0 then "failed"
        else if comparisons.length = 0 then "incomplete"
        else "verified"
      documents_count := documents_count
      comparisons := comparisons
      errors := [] }

/-- One entry of the error summary built by `extract_verification_errors`. -/
structure ErrEntry where
  type : String
  issues : List String
deriving DecidableEq, Repr

/-- The error summary dict. -/
structure ErrorSummary where
  status : String
  comparisons : List ErrEntry
deriving DecidableEq, Repr

/-- Lines 228-245, `extract_verification_errors(verification_result)`:
`None` for a falsy input or a non-failed status, else collect every
comparison entry whose status is failed, `None` when none is. -/
def extract_verification_errors (verification_result : Option VerificationResult) :
    Option ErrorSummary :=
  match verification_result with
  | none => none
  | some vr =>
    if vr.overall_status ≠ "failed" then none
    else
      let comps := (vr.comparisons.filter (fun c => c.status = "failed")).map
        (fun c => ErrEntry.mk c.type c.details.issues)
      if comps = [] then none else some ⟨"failed", comps⟩

/-! ## `src/services/document_verification.py` -/

/-- A word character for the regex `\b` boundary (`\w`, ASCII part). -/
def pyWordChar (c : Char) : Bool := c.isAlphanum || c = '_'

/-- A `\b` boundary holds between the previous character (`none` at the start
of the string) and a word character. -/
def boundaryBefore (prev : Option Char) : Bool :=
  match prev with
  | none => true
  | some c => !pyWordChar c

/-- The honorific alternatives of `\b(mr|mrs|ms|dr|prof|sr|jr)\b\.?`, in the
order the regex engine tries them (first match wins). -/
def titleAlts : List (List Char) :=
  [['m','r'], ['m','r','s'], ['m','s'], ['d','r'],
   ['p','r','o','f'], ['s','r'], ['j','r']]

/-- Does `lit` occur as a literal prefix of `cs`? Returns the remainder. -/
def matchLit : List Char → List Char → Option (List Char)
  | [], cs => some cs
  | _ :: _, [] => none
  | l :: ls, c :: cs => if c = l then matchLit ls cs else none

/-- Try one alternative at the current position: literal, then the trailing
`\b` (the next character, if any, is not a word character), then the optional
`\.?` (greedy). Returns the last consumed character and the remainder. -/
def tryAlt (lit : List Char) (cs : List Char) : Option (Char × List Char) :=
  match matchLit lit cs with
  | none => none
  | some rest =>
    match rest with
    | [] => some (lit.getLast!, [])
    | c :: rest2 =>
      if pyWordChar c then none
      else if c = '.' then some ('.', rest2)
      else some (lit.getLast!, c :: rest2)

/-- Try the whole title pattern at the current position: the leading `\b`
against `prev`, then each alternative in order. -/
def tryTitle (prev : Option Char) (cs : List Char) : Option (Char × List Char) :=
  if boundaryBefore prev then
    (titleAlts.map (fun lit => tryAlt lit cs)).foldr
      (fun r acc => match r with | some v => some v | none => acc) none
  else none

/-- `re.sub(r"\b(mr|mrs|ms|dr|prof|sr|jr)\b\.?", "", text)`: scan left to
right; at each position either remove a match (resuming after it, with the
boundary judged against the last character the match consumed) or keep one
character. `fuel` bounds the recursion by the input length; every step
consumes at least one character. -/
def subTitles (fuel : ℕ) (prev : Option Char) (cs : List Char) : List Char :=
  match fuel with
  | 0 => cs
  | fuel + 1 =>
    match cs with
    | [] => []
    | c :: rest =>
      match tryTitle prev (c :: rest) with
      | some (lastc, remaining) => subTitles fuel (some lastc) remaining
      | none => c :: subTitles fuel (some c) rest

/-- Lines 12-22, `normalize_name(name)`: collapse whitespace on the stripped
input, lowercase, remove honorific tokens, strip again. -/
def normalize_name (name : String) : String :=
  if name = "" then ""
  else
    let normalized := pyLower (joinWords (pySplit (pyStrip name)))
    String.mk (stripChars (subTitles normalized.data.length none normalized.data))

/-- Lines 25-39, `extract_first_last_name(name)`: split the stripped name on
whitespace; no parts gives two empty strings, one part is the first name,
otherwise first and last token. -/
def extract_first_last_name (name : String) : String × String :=
  if name = "" then ("", "")
  else
    match pySplit (pyStrip name) with
    | [] => ("", "")
    | [p] => (p, "")
    | p :: rest => (p, rest.getLastD p)

/-- `^\d{2}-\d{2}-\d{4}$` as `re.match` with an end anchor tests it. -/
def isCanonDob (cs : List Char) : Bool :=
  match cs with
  | [a, b, h1, c, d, h2, e, f, g, h] =>
    a.isDigit && b.isDigit && h1 = '-' && c.isDigit && d.isDigit && h2 = '-' &&
    e.isDigit && f.isDigit && g.isDigit && h.isDigit
  | _ => false

/-- `[/.\s]` — the separator class of the date-search regex. -/
def dateSep (c : Char) : Bool := c = '/' || c = '.' || pySpace c

/-- `[/.\s]+` with maximal munch: the class is disjoint from `\d`, which is
the token that follows the repetition in the pattern, so the greedy maximal
run is the only run the backtracking engine can accept. Requires at least one
separator. -/
def munchSep : List Char → Option (List Char)
  | [] => none
  | c :: rest => if dateSep c then some (rest.dropWhile dateSep) else none

/-- `(\d{4})`: exactly four digit characters; trailing input is left alone
because the pattern ends here and `re.search` allows a partial match. -/
def fourDigits : List Char → Option (List Char)
  | a :: b :: c :: d :: _ =>
    if a.isDigit && b.isDigit && c.isDigit && d.isDigit then some [a, b, c, d]
    else none
  | _ => none

/-- After the month: `[/.\s]+(\d{4})`. -/
def sepThenYear (cs : List Char) : Option (List Char) :=
  match munchSep cs with
  | none => none
  | some rest => fourDigits rest

/-- `(\d{1,2})[/.\s]+(\d{4})` for the month onward, with the greedy two-digit
attempt tried before the one-digit fallback, as the engine backtracks (the
fallback re-reads the second character, which must then open the separator
run). -/
def monthThenYear : List Char → Option (ℕ × List Char)
  | a :: b :: rest =>
    if a.isDigit && b.isDigit then
      ((sepThenYear rest).map (fun y => (10 * digVal a + digVal b, y))).orElse
        (fun _ =>
          if dateSep b then
            (sepThenYear (b :: rest)).map (fun y => (digVal a, y))
          else none)
    else if a.isDigit then
      (sepThenYear (b :: rest)).map (fun y => (digVal a, y))
    else none
  | [_] => none
  | [] => none

/-- `[/.\s]+` then the month-year tail. -/
def sepThenMonth (cs : List Char) : Option (ℕ × List Char) :=
  match munchSep cs with
  | none => none
  | some rest => monthThenYear rest

/-- The full pattern `(\d{1,2})[/.\s]+(\d{1,2})[/.\s]+(\d{4})` anchored at the
current position, greedy day first with the same backtracking shape. -/
def matchDate : List Char → Option (ℕ × ℕ × List Char)
  | a :: b :: rest =>
    if a.isDigit && b.isDigit then
      ((sepThenMonth rest).map
          (fun my => (10 * digVal a + digVal b, my.1, my.2))).orElse
        (fun _ =>
          if dateSep b then
            (sepThenMonth (b :: rest)).map (fun my => (digVal a, my.1, my.2))
          else none)
    else if a.isDigit then
      (sepThenMonth (b :: rest)).map (fun my => (digVal a, my.1, my.2))
    else none
  | [_] => none
  | [] => none

/-- `re.search`: try the pattern at every position, leftmost first. -/
def searchDate : List Char → Option (ℕ × ℕ × List Char)
  | [] => none
  | c :: rest =>
    match matchDate (c :: rest) with
    | some r => some r
    | none => searchDate rest

/-- `^(\d{2})(\d{2})(\d{4})$`: exactly eight digits. -/
def isEightDigits (cs : List Char) : Bool :=
  cs.length = 8 && cs.all Char.isDigit

/-- Lines 42-68, `normalize_dob(dob)`: empty input unchanged; strip; already
canonical `DD-MM-YYYY` returned as stripped; else `re.search` for a
day/month/year group anywhere in the string, zero-padding day and month; else
an exactly-eight-digit string split `DD-MM-YYYY`; else the stripped input. -/
def normalize_dob (dob : String) : String :=
  if dob = "" then ""
  else
    let t := stripChars dob.data
    if isCanonDob t then String.mk t
    else
      match searchDate t with
      | some (day, month, year) =>
        pad2 day ++ "-" ++ pad2 month ++ "-" ++ String.mk year
      | none =>
        if isEightDigits t then
          String.mk (t.take 2 ++ '-' :: (t.drop 2).take 2 ++ '-' :: t.drop 4)
        else String.mk t

/-- `set(xs) <= set(ys)` for word lists: every word of `xs` occurs in `ys`. -/
def wordSubset (xs ys : List String) : Bool := xs.all (fun w => ys.contains w)

/-- Lines 71-117, `compare_names(personal_name, edu_name)`: an argument is any
Python value that is `None` or a string (`x or ""` then `.strip()`). Returns
`(is_match, message)`. -/
def compare_names (personal_name edu_name : Option String) : Bool × String :=
  let p := pyStrip (personal_name.getD "")
  let e := pyStrip (edu_name.getD "")
  if p = "" && e = "" then
    (true, "Name not present in both documents (acceptable)")
  else if p = "" || e = "" then
    (true, "Name not present in one document (acceptable)")
  else
    let personal_normalized := normalize_name p
    let edu_normalized := normalize_name e
    if personal_normalized = edu_normalized then
      (true, "Names match: '" ++ p ++ "' == '" ++ e ++ "'")
    else
      let personal_words := pySplit personal_normalized
      let edu_words := pySplit edu_normalized
      if wordSubset personal_words edu_words || wordSubset edu_words personal_words then
        (true, "Names partially match: '" ++ p ++ "' ≈ '" ++ e ++ "'")
      else
        let pf := extract_first_last_name personal_normalized
        let ef := extract_first_last_name edu_normalized
        if (pf.1 ≠ "" && pf.1 = ef.1) || (pf.2 ≠ "" && pf.2 = ef.2) then
          (true, "First or last name matches: '" ++ p ++ "' ≈ '" ++ e ++ "'")
        else
          (false, "Name MISMATCH: Personal='" ++ p ++ "' vs Educational='" ++ e ++ "'")

/-- Lines 120-148, `compare_dobs(personal_dob, edu_dob)`. -/
def compare_dobs (personal_dob edu_dob : Option String) : Bool × String :=
  let p := pyStrip (personal_dob.getD "")
  let e := pyStrip (edu_dob.getD "")
  if p = "" && e = "" then
    (true, "DOB not present in both documents (acceptable)")
  else if p = "" || e = "" then
    (true, "DOB not present in one document (acceptable)")
  else
    if normalize_dob p = normalize_dob e then
      (true, "DOBs match: " ++ p)
    else
      (false, "DOB MISMATCH: Personal='" ++ p ++ "' vs Educational='" ++ e ++ "'")

/-- A document dict as `verify_documents` reads it: the keys are `name` and
`dob` here (not `date_of_birth`). -/
structure VDoc where
  name : FieldVal
  dob : FieldVal
deriving DecidableEq, Repr

/-- The dict returned by `verify_documents`. The `error_message` key is set in
every branch of the source, holding either a string (`some`) or `None`
(`none`); the other optional keys are `none` exactly when the branch taken
does not set them. -/
structure VResult where
  verified : Bool
  name_match : Option Bool := none
  name_message : Option String := none
  dob_match : Option Bool := none
  dob_message : Option String := none
  verification_status : String
  error_message : Option String := none
  reupload_required : Option Bool := none
deriving DecidableEq, Repr

/-- Lines 151-238, `verify_documents(personal_data, educational_data)`: the
falsy-dict cases short-circuit to `not_applicable`; field access uses
`.get(key, "").strip()`, which raises on a stored `None` (hence `Except`). -/
def verify_documents (personal_data educational_data : Option VDoc) :
    Except PyError VResult :=
  match personal_data with
  | none =>
    .ok { verified := false
          verification_status := "not_applicable"
          error_message := some "Personal data not available for verification" }
  | some pd => do
    let personal_name ← pd.name.getStrip
    let personal_dob ← pd.dob.getStrip
    match educational_data with
    | none =>
      pure { verified := true
             verification_status := "not_applicable"
             error_message := none }
    | some ed => do
      let edu_name ← ed.name.getStrip
      let edu_dob ← ed.dob.getStrip
      if edu_name = "" && edu_dob = "" then
        pure { verified := true
               verification_status := "not_applicable"
               error_message := none }
      else
        let nm := compare_names (some personal_name) (some edu_name)
        let dm := compare_dobs (some personal_dob) (some edu_dob)
        if nm.1 && dm.1 then
          pure { verified := true
                 name_match := some nm.1
                 name_message := some nm.2
                 dob_match := some dm.1
                 dob_message := some dm.2
                 verification_status := "matched"
                 error_message := none }
        else
          let error_message :=
            String.intercalate " | "
              ((if nm.1 then [] else [nm.2]) ++ (if dm.1 then [] else [dm.2]))
          pure { verified := false
                 name_match := some nm.1
                 name_message := some nm.2
                 dob_match := some dm.1
                 dob_message := some dm.2
                 verification_status := "mismatched"
                 error_message := some error_message
                 reupload_required := some true }

/-! ## `src/api/document_endpoints.py`, the extraction pipeline from the OCR
stage onward. The file-acquisition stages above it (camera decode, format
check, file save) return before this point on their own errors; the model
starts at line 111 / line 287 with the saved file path in hand. The OCR and
LLM collaborators are parameters; each call to the (out-of-repository)
persistence function `crud.save_document_extraction` is reified as an
`AuditRecord` in the order the calls happen, and `crud.update_worker_data`
as the `worker_update` field. -/

/-- One `crud.save_document_extraction(worker_id, doc_type, raw_text,
extracted_data, file_path, status?, reason?)` call. `structured = none`
models the empty dict `{}`; `status`/`reason` are `none` when the call left
them to their defaults (the success-path calls pass five arguments). -/
structure AuditRecord (α : Type) where
  worker_id : String
  doc_class : String
  raw_text : String
  structured : Option α
  file_path : Option String
  status : Option String
  reason : Option String
deriving DecidableEq, Repr

/-- The JSON envelope built by `_build_response` (the fields the claims
read). -/
structure ApiResponse where
  statusCode : ℕ
  message : String
  error_code : Option String
deriving DecidableEq, Repr

/-- The structured record the personal-document LLM extractor returns. -/
structure PData where
  name : FieldVal
  date_of_birth : FieldVal
  address : FieldVal
deriving DecidableEq, Repr

/-- Everything observable about one run of the personal pipeline tail. -/
structure PersonalOutcome where
  audits : List (AuditRecord PData)
  worker_update : Option (String × String × String)
  llm_called : Bool
  response : ApiResponse
deriving DecidableEq, Repr

/-- `if not raw_ocr_text or len(raw_ocr_text.strip()) < 50` — `None` and the
empty string are falsy, and a short trimmed text fails the minimum. -/
def ocrInsufficient (raw_ocr_text : Option String) : Bool :=
  match raw_ocr_text with
  | none => true
  | some t => t = "" || (stripChars t.data).length < 50

/-- Lines 107-160 of `upload_personal_document`: OCR guard, LLM extraction,
worker update, audit log, response. `llm` is the `extract_personal_data`
collaborator (`none` for a falsy result), `update_ok` the boolean that
`crud.update_worker_data` returns. -/
def upload_personal_document_ocr_stage (worker_id : String)
    (file_path : Option String) (raw_ocr_text : Option String)
    (llm : String → Option PData) (update_ok : Bool) : PersonalOutcome :=
  if ocrInsufficient raw_ocr_text then
    { audits := [⟨worker_id, "personal", raw_ocr_text.getD "", none, file_path,
                  some "failed",
                  some "OCR extraction failed or returned insufficient text"⟩]
      worker_update := none
      llm_called := false
      response := ⟨400, "Failed to extract text from document. Please upload a clearer image.",
                   some "OCR_EXTRACTION_FAILED"⟩ }
  else
    let raw := raw_ocr_text.getD ""
    match llm raw with
    | none =>
      { audits := [⟨worker_id, "personal", raw, none, file_path,
                    some "failed", some "LLM extraction failed"⟩]
        worker_update := none
        llm_called := true
        response := ⟨400, "Failed to extract personal data. Please try again.",
                     some "LLM_EXTRACTION_FAILED"⟩ }
    | some extracted_data =>
      let name := extracted_data.name.getOr
      let dob := extracted_data.date_of_birth.getOr
      let address := extracted_data.address.getOr
      if update_ok then
        { audits := [⟨worker_id, "personal", raw, some extracted_data, file_path,
                      none, none⟩]
          worker_update := some (name, dob, address)
          llm_called := true
          response := ⟨200, "Personal document processed successfully", none⟩ }
      else
        { audits := []
          worker_update := some (name, dob, address)
          llm_called := true
          response := ⟨500, "Failed to save extracted data",
                       some "DATABASE_SAVE_FAILED"⟩ }

/-- Everything observable about one run of `_process_educational_document`
from the OCR stage onward; `result` is the returned
`(file_path, extracted_data or None)` pair. -/
structure EduOutcome (β : Type) where
  audits : List (AuditRecord β)
  llm_called : Bool
  result : Option String × Option β
deriving DecidableEq, Repr

/-- Lines 285-316 of `_process_educational_document`: OCR guard, LLM
extraction, audit log. The `_raw_ocr` key inserted at line 308 is removed
again by the cleaning comprehension at line 311, so the persisted and
returned record equal the extractor output. -/
def process_educational_document_ocr_stage {β : Type} (worker_id class_level : String)
    (file_path : Option String) (raw_ocr_text : Option String)
    (extractor : String → Option β) : EduOutcome β :=
  if ocrInsufficient raw_ocr_text then
    { audits := [⟨worker_id, class_level, raw_ocr_text.getD "", none, file_path,
                  some "failed", some "OCR extraction failed"⟩]
      llm_called := false
      result := (file_path, none) }
  else
    let raw := raw_ocr_text.getD ""
    match extractor raw with
    | none =>
      { audits := [⟨worker_id, class_level, raw, none, file_path,
                    some "failed", some "LLM extraction failed"⟩]
        llm_called := true
        result := (file_path, none) }
    | some extracted_data =>
      { audits := [⟨worker_id, class_level, raw, some extracted_data, file_path,
                    none, none⟩]
        llm_called := true
        result := (file_path, some extracted_data) }

/-! ## Claims -/

/-- C8: `fuzzy_match_name(x, x, t) == (1.0, true)` for every non-empty `x` and
threshold `t ≤ 1.0`, for any ratio collaborator that scores identical strings
100 (both fuzzywuzzy backends do); and `fuzzy_match_name("", y, t) == (0.0,
false)` for every `y` and `t`, symmetrically when the second argument is
empty. -/
theorem fuzzy_match_name_refl_and_empty :
    (∀ ratio : String → String → ℕ, (∀ s, ratio s s = 100) →
      ∀ (x : String) (t : ℚ), x ≠ "" → t ≤ 1 →
        fuzzy_match_name ratio x x t = (1, true)) ∧
    (∀ (ratio : String → String → ℕ) (y : String) (t : ℚ),
      fuzzy_match_name ratio "" y t = (0, false) ∧
      fuzzy_match_name ratio y "" t = (0, false)) := by
  constructor
  · intro ratio h100 x t hx ht
    simp only [fuzzy_match_name]
    rw [if_neg (by simp [hx])]
    simp only [h100]
    norm_num
    exact ht
  · intro ratio y t
    constructor
    · simp [fuzzy_match_name]
    · simp [fuzzy_match_name]

/-- Witness for C8 at `x = "Ravi"`, `t = 0.85`, the ratio function that scores
equal strings 100. -/
theorem fuzzy_match_name_refl_and_empty_witness :
    fuzzy_match_name (fun a b => if a = b then 100 else 0) "Ravi" "Ravi" (85/100)
      = (1, true) :=
  fuzzy_match_name_refl_and_empty.1 (fun a b => if a = b then 100 else 0)
    (fun s => by simp) "Ravi" (85/100) (by decide) (by norm_num)

/-- C3, counterexample: a failed verification result whose single failed
comparison carries zero issues. The claim says the summary omits comparisons
with no issues and collapses to null here; the code keeps the comparison
(with an empty issue list) and returns a non-null summary. -/
theorem extract_verification_errors_keeps_empty_issue_comparisons :
    extract_verification_errors
      (some ⟨"failed", 2,
             [⟨"personal_vs_10th", "failed",
               ⟨"failed", ⟨none, none, none, none, none, none, false⟩,
                ⟨none, none, none, none, none, none, false⟩, []⟩⟩], []⟩)
      = some ⟨"failed", [⟨"personal_vs_10th", []⟩]⟩ := by
  rfl

/-- C3 amended: `extract_verification_errors` returns null for a falsy input
or unless `overall_status == "failed"`; when failed it returns an entry for
every comparison whose status is failed — including those with an empty
issues list — and returns null exactly when no comparison has status
failed. -/
theorem extract_verification_errors_spec (vr : VerificationResult) :
    extract_verification_errors none = none ∧
    (vr.overall_status ≠ "failed" → extract_verification_errors (some vr) = none) ∧
    (vr.overall_status = "failed" →
      extract_verification_errors (some vr) =
        (if (vr.comparisons.filter (fun c => c.status = "failed")) = [] then none
         else some ⟨"failed",
           (vr.comparisons.filter (fun c => c.status = "failed")).map
             (fun c => ErrEntry.mk c.type c.details.issues)⟩)) := by
  refine ⟨rfl, fun h => by simp [extract_verification_errors, h], fun h => ?_⟩
  simp only [extract_verification_errors, h]
  rw [if_neg (by simp)]
  by_cases hf : (vr.comparisons.filter (fun c => c.status = "failed")) = []
  · simp [hf]
  · simp [hf]

/-- Witness for C3 amended at a concrete failed result with one failed
comparison. -/
theorem extract_verification_errors_spec_witness :
    extract_verification_errors
      (some ⟨"failed", 2,
             [⟨"10th_vs_12th", "failed",
               ⟨"failed", ⟨none, none, none, none, none, none, false⟩,
                ⟨none, none, none, none, none, none, false⟩,
                ["DOB mismatch: a vs b"]⟩⟩], []⟩)
      = some ⟨"failed", [⟨"10th_vs_12th", ["DOB mismatch: a vs b"]⟩]⟩ := by
  have h := (extract_verification_errors_spec
      ⟨"failed", 2,
       [⟨"10th_vs_12th", "failed",
         ⟨"failed", ⟨none, none, none, none, none, none, false⟩,
          ⟨none, none, none, none, none, none, false⟩,
          ["DOB mismatch: a vs b"]⟩⟩], []⟩).2.2 rfl
  simpa using h

/-- `compare_documents` fails exactly when it logged at least one issue, and
its status is always `failed` or `verified`. -/
lemma compare_documents_status_iff_issues (ratio : String → String → ℕ)
    (o1 o2 : Option Doc) (t : ℚ) :
    ((compare_documents ratio o1 o2 t).status = "failed" ↔
      (compare_documents ratio o1 o2 t).issues ≠ []) ∧
    ((compare_documents ratio o1 o2 t).status = "failed" ∨
      (compare_documents ratio o1 o2 t).status = "verified") := by
  match o1, o2 with
  | none, none => simp [compare_documents]
  | none, some d => simp [compare_documents]
  | some d, none => simp [compare_documents]
  | some d1, some d2 =>
    simp only [compare_documents]
    by_cases hn1 : d1.name.getOr = "" <;>
    by_cases hn2 : d2.name.getOr = "" <;>
    by_cases hd1 : d1.date_of_birth.getOr = "" <;>
    by_cases hd2 : d2.date_of_birth.getOr = "" <;>
    by_cases hm : (fuzzy_match_name ratio d1.name.getOr d2.name.getOr t).2 = true <;>
    by_cases he : exact_match_dob d1.date_of_birth.getOr d2.date_of_birth.getOr = true <;>
    simp [hn1, hn2, hd1, hd2, hm, he]

/-- Every comparison entry of a verification result restates the status of
its details, and its details are an output of `compare_documents`. -/
lemma verify_worker_comparisons_mem (ratio : String → String → ℕ) (t : ℚ)
    (p a b : Option Doc) :
    ∀ e ∈ (verify_worker_documents ratio p a b t).comparisons,
      e.status = e.details.status ∧
      ∃ x y, e.details = compare_documents ratio x y t := by
  intro e he
  match p, a, b with
  | none, none, none => simp [verify_worker_documents] at he
  | none, none, some db => simp [verify_worker_documents] at he
  | none, some da, none => simp [verify_worker_documents] at he
  | some dp, none, none => simp [verify_worker_documents] at he
  | none, some da, some db =>
    simp [verify_worker_documents] at he
    subst he
    exact ⟨rfl, some da, some db, rfl⟩
  | some dp, none, some db =>
    simp [verify_worker_documents] at he
    subst he
    exact ⟨rfl, some dp, some db, rfl⟩
  | some dp, some da, none =>
    simp [verify_worker_documents] at he
    subst he
    exact ⟨rfl, some dp, some da, rfl⟩
  | some dp, some da, some db =>
    simp [verify_worker_documents] at he
    rcases he with rfl | rfl | rfl
    · exact ⟨rfl, some dp, some da, rfl⟩
    · exact ⟨rfl, some dp, some db, rfl⟩
    · exact ⟨rfl, some da, some db, rfl⟩

/-- A failed overall status means at least one comparison entry failed. -/
lemma verify_worker_failed_exists (ratio : String → String → ℕ) (t : ℚ)
    (p a b : Option Doc)
    (h : (verify_worker_documents ratio p a b t).overall_status = "failed") :
    ∃ e ∈ (verify_worker_documents ratio p a b t).comparisons,
      e.status = "failed" := by
  match p, a, b with
  | none, none, none => simp [verify_worker_documents] at h
  | none, none, some db => simp [verify_worker_documents] at h
  | none, some da, none => simp [verify_worker_documents] at h
  | some dp, none, none => simp [verify_worker_documents] at h
  | none, some da, some db =>
    by_cases h1 : (compare_documents ratio (some da) (some db) t).status = "failed" <;>
      simp_all [verify_worker_documents]
  | some dp, none, some db =>
    by_cases h1 : (compare_documents ratio (some dp) (some db) t).status = "failed" <;>
      simp_all [verify_worker_documents]
  | some dp, some da, none =>
    by_cases h1 : (compare_documents ratio (some dp) (some da) t).status = "failed" <;>
      simp_all [verify_worker_documents]
  | some dp, some da, some db =>
    by_cases h1 : (compare_documents ratio (some dp) (some da) t).status = "failed" <;>
    by_cases h2 : (compare_documents ratio (some dp) (some db) t).status = "failed" <;>
    by_cases h3 : (compare_documents ratio (some da) (some db) t).status = "failed" <;>
      simp_all [verify_worker_documents]

/-- C10: a comparison result has status `failed` iff its issues list is
non-empty (so `verified` carries zero issues and `failed` at least one), and
consequently a failed overall verification always yields a non-null error
summary whose entries all carry issues — the defensive empty branch of
`extract_verification_errors` is unreachable from `verify_worker_documents`
outputs. -/
theorem compare_documents_failed_iff_issues (ratio : String → String → ℕ) :
    (∀ (o1 o2 : Option Doc) (t : ℚ),
      ((compare_documents ratio o1 o2 t).status = "failed" ↔
        (compare_documents ratio o1 o2 t).issues ≠ []) ∧
      ((compare_documents ratio o1 o2 t).status = "verified" →
        (compare_documents ratio o1 o2 t).issues = [])) ∧
    (∀ (t : ℚ) (p a b : Option Doc),
      (verify_worker_documents ratio p a b t).overall_status = "failed" →
      ∃ s, extract_verification_errors
             (some (verify_worker_documents ratio p a b t)) = some s ∧
           s.comparisons ≠ [] ∧ ∀ en ∈ s.comparisons, en.issues ≠ []) := by
  have key := compare_documents_status_iff_issues ratio
  constructor
  · intro o1 o2 t
    refine ⟨(key o1 o2 t).1, fun hv => ?_⟩
    by_contra hne
    have hf := ((key o1 o2 t).1).2 hne
    rw [hv] at hf
    simp at hf
  · intro t p a b h
    have hmem := verify_worker_comparisons_mem ratio t p a b
    obtain ⟨e, he, hef⟩ := verify_worker_failed_exists ratio t p a b h
    have hfil : (verify_worker_documents ratio p a b t).comparisons.filter
        (fun c => c.status = "failed") ≠ [] := by
      intro hnil
      rw [List.filter_eq_nil_iff] at hnil
      exact hnil e he (by simp [hef])
    refine ⟨⟨"failed",
      ((verify_worker_documents ratio p a b t).comparisons.filter
        (fun c => c.status = "failed")).map
        (fun c => ErrEntry.mk c.type c.details.issues)⟩, ?_, ?_, ?_⟩
    · simp only [extract_verification_errors, h]
      rw [if_neg (by simp)]
      rw [if_neg (by simpa using hfil)]
    · simpa using hfil
    · intro en hen
      simp only [List.mem_map, List.mem_filter] at hen
      obtain ⟨c, ⟨hc, hcf⟩, rfl⟩ := hen
      obtain ⟨hcs, x, y, hdet⟩ := hmem c hc
      have : c.details.status = "failed" := by
        rw [← hcs]; exact of_decide_eq_true hcf
      simp only [hdet] at this ⊢
      exact ((key x y t).1).1 this

/-- Witness for C10: a concrete verification (two documents with mismatched
DOBs) whose overall status is failed, with the failed-status hypothesis
discharged by evaluation. -/
theorem compare_documents_failed_iff_issues_witness :
    ∃ s, extract_verification_errors
           (some (verify_worker_documents (fun _ _ => 0)
             (some ⟨.missing, .str "1998-05-02"⟩)
             (some ⟨.missing, .str "1998-05-03"⟩) none (85/100)))
           = some s ∧
         s.comparisons ≠ [] ∧ ∀ en ∈ s.comparisons, en.issues ≠ [] :=
  (compare_documents_failed_iff_issues (fun _ _ => 0)).2 (85/100)
    (some ⟨.missing, .str "1998-05-02"⟩) (some ⟨.missing, .str "1998-05-03"⟩)
    none (by decide)

/-- C2: for two present documents, the name sub-match runs `fuzzy_match_name`
exactly when both names are non-empty (recording the rounded similarity, the
threshold and PASSED/FAILED), the DOB sub-match runs `exact_match_dob` exactly
when both DOBs are non-empty, an absent field on either side yields a SKIPPED
sub-match with `passed = true` (never FAILED), and the overall status is
`failed` iff some non-skipped sub-match failed, else `verified`. -/
theorem compare_documents_submatch_spec (ratio : String → String → ℕ)
    (t : ℚ) (d1 d2 : Doc) :
    (d1.name.getOr ≠ "" → d2.name.getOr ≠ "" →
      (compare_documents ratio (some d1) (some d2) t).name_match =
        ⟨some d1.name.getOr, some d2.name.getOr,
         some (round3 (fuzzy_match_name ratio d1.name.getOr d2.name.getOr t).1),
         some t,
         some (if (fuzzy_match_name ratio d1.name.getOr d2.name.getOr t).2
               then "PASSED" else "FAILED"),
         none,
         (fuzzy_match_name ratio d1.name.getOr d2.name.getOr t).2⟩) ∧
    (d1.name.getOr = "" ∨ d2.name.getOr = "" →
      (compare_documents ratio (some d1) (some d2) t).name_match.status =
        some "SKIPPED" ∧
      (compare_documents ratio (some d1) (some d2) t).name_match.passed = true) ∧
    (d1.date_of_birth.getOr ≠ "" → d2.date_of_birth.getOr ≠ "" →
      (compare_documents ratio (some d1) (some d2) t).dob_match =
        ⟨some d1.date_of_birth.getOr, some d2.date_of_birth.getOr, none, none,
         some (if exact_match_dob d1.date_of_birth.getOr d2.date_of_birth.getOr
               then "PASSED" else "FAILED"),
         none,
         exact_match_dob d1.date_of_birth.getOr d2.date_of_birth.getOr⟩) ∧
    (d1.date_of_birth.getOr = "" ∨ d2.date_of_birth.getOr = "" →
      (compare_documents ratio (some d1) (some d2) t).dob_match.status =
        some "SKIPPED" ∧
      (compare_documents ratio (some d1) (some d2) t).dob_match.passed = true) ∧
    ((compare_documents ratio (some d1) (some d2) t).status = "failed" ↔
      ((compare_documents ratio (some d1) (some d2) t).name_match.passed = false ∨
       (compare_documents ratio (some d1) (some d2) t).dob_match.passed = false)) ∧
    ((compare_documents ratio (some d1) (some d2) t).status = "failed" ∨
     (compare_documents ratio (some d1) (some d2) t).status = "verified") := by
  by_cases hn1 : d1.name.getOr = "" <;>
  by_cases hn2 : d2.name.getOr = "" <;>
  by_cases hd1 : d1.date_of_birth.getOr = "" <;>
  by_cases hd2 : d2.date_of_birth.getOr = "" <;>
  by_cases hm : (fuzzy_match_name ratio d1.name.getOr d2.name.getOr t).2 = true <;>
  by_cases he : exact_match_dob d1.date_of_birth.getOr d2.date_of_birth.getOr = true <;>
  simp_all [compare_documents]

/-- Witness for C2 at documents with matching DOBs and no names (SKIPPED name
sub-match, verified overall). -/
theorem compare_documents_submatch_spec_witness :
    (compare_documents (fun _ _ => 0) (some ⟨.missing, .str "1998-05-02"⟩)
      (some ⟨.null, .str "1998-05-02"⟩) (85/100)).name_match.status =
      some "SKIPPED" ∧
    (compare_documents (fun _ _ => 0) (some ⟨.missing, .str "1998-05-02"⟩)
      (some ⟨.null, .str "1998-05-02"⟩) (85/100)).name_match.passed = true :=
  (compare_documents_submatch_spec (fun _ _ => 0) (85/100)
    ⟨.missing, .str "1998-05-02"⟩ ⟨.null, .str "1998-05-02"⟩).2.1
    (Or.inl (by decide))

/-- C1: with fewer than two present documents the orchestrator short-circuits
to `incomplete` with an explanatory error and no comparisons; otherwise it
compares exactly the pairs whose two sides are present, in the fixed order
personal-10th, personal-12th, 10th-12th, and the overall status is failed if
any attempted comparison failed, incomplete if none was attempted, else
verified. -/
theorem verify_worker_documents_spec (ratio : String → String → ℕ) (t : ℚ)
    (p a b : Option Doc) :
    (((if p.isSome then 1 else 0) + (if a.isSome then 1 else 0) +
        (if b.isSome then 1 else 0) : ℕ) < 2 →
      (verify_worker_documents ratio p a b t).overall_status = "incomplete" ∧
      (verify_worker_documents ratio p a b t).errors =
        ["Need at least 2 documents for verification"] ∧
      (verify_worker_documents ratio p a b t).comparisons = []) ∧
    (2 ≤ ((if p.isSome then 1 else 0) + (if a.isSome then 1 else 0) +
        (if b.isSome then 1 else 0) : ℕ) →
      (verify_worker_documents ratio p a b t).comparisons =
        (if p.isSome && a.isSome then
          [CompEntry.mk "personal_vs_10th" (compare_documents ratio p a t).status
            (compare_documents ratio p a t)] else []) ++
        (if p.isSome && b.isSome then
          [CompEntry.mk "personal_vs_12th" (compare_documents ratio p b t).status
            (compare_documents ratio p b t)] else []) ++
        (if a.isSome && b.isSome then
          [CompEntry.mk "10th_vs_12th" (compare_documents ratio a b t).status
            (compare_documents ratio a b t)] else []) ∧
      (verify_worker_documents ratio p a b t).overall_status =
        (if (verify_worker_documents ratio p a b t).comparisons.any
              (fun c => c.status = "failed") then "failed"
         else if (verify_worker_documents ratio p a b t).comparisons = []
         then "incomplete" else "verified")) := by
  match p, a, b with
  | none, none, none => simp [verify_worker_documents]
  | none, none, some db => simp [verify_worker_documents]
  | none, some da, none => simp [verify_worker_documents]
  | some dp, none, none => simp [verify_worker_documents]
  | none, some da, some db =>
    by_cases h1 : (compare_documents ratio (some da) (some db) t).status = "failed" <;>
      simp_all [verify_worker_documents]
  | some dp, none, some db =>
    by_cases h1 : (compare_documents ratio (some dp) (some db) t).status = "failed" <;>
      simp_all [verify_worker_documents]
  | some dp, some da, none =>
    by_cases h1 : (compare_documents ratio (some dp) (some da) t).status = "failed" <;>
      simp_all [verify_worker_documents]
  | some dp, some da, some db =>
    by_cases h1 : (compare_documents ratio (some dp) (some da) t).status = "failed" <;>
    by_cases h2 : (compare_documents ratio (some dp) (some db) t).status = "failed" <;>
    by_cases h3 : (compare_documents ratio (some da) (some db) t).status = "failed" <;>
      simp_all [verify_worker_documents]

/-- Witness for C1 with a single present document: the short-circuit branch,
its hypothesis discharged numerically. -/
theorem verify_worker_documents_spec_witness :
    (verify_worker_documents (fun _ _ => 0)
      (some ⟨.str "A", .missing⟩) none none (85/100)).overall_status =
      "incomplete" ∧
    (verify_worker_documents (fun _ _ => 0)
      (some ⟨.str "A", .missing⟩) none none (85/100)).errors =
      ["Need at least 2 documents for verification"] ∧
    (verify_worker_documents (fun _ _ => 0)
      (some ⟨.str "A", .missing⟩) none none (85/100)).comparisons = [] :=
  (verify_worker_documents_spec (fun _ _ => 0) (85/100)
    (some ⟨.str "A", .missing⟩) none none).1 (by decide)

/-- C4: when OCR yields no text or text whose trimmed length is below the
50-character minimum, both pipelines persist exactly one audited failed
extraction record (empty structured data, the raw text as captured, an
explicit failure reason), return the OCR failure to the caller (the typed
`OCR_EXTRACTION_FAILED` response for the personal endpoint, the
`(file_path, None)` failure pair for the educational helper), and never call
the LLM extractor. -/
theorem ocr_insufficient_text_spec {β : Type}
    (worker_id class_level : String) (file_path : Option String)
    (raw : Option String) (llm : String → Option PData)
    (extractor : String → Option β) (update_ok : Bool)
    (h : (stripChars (raw.getD "").data).length < 50) :
    upload_personal_document_ocr_stage worker_id file_path raw llm update_ok =
      ⟨[⟨worker_id, "personal", raw.getD "", none, file_path, some "failed",
         some "OCR extraction failed or returned insufficient text"⟩],
       none, false,
       ⟨400, "Failed to extract text from document. Please upload a clearer image.",
        some "OCR_EXTRACTION_FAILED"⟩⟩ ∧
    process_educational_document_ocr_stage worker_id class_level file_path raw
        extractor =
      ⟨[⟨worker_id, class_level, raw.getD "", none, file_path, some "failed",
         some "OCR extraction failed"⟩],
       false, (file_path, none)⟩ := by
  have hins : ocrInsufficient raw = true := by
    match raw with
    | none => rfl
    | some txt => simp [ocrInsufficient]; right; simpa using h
  constructor
  · simp [upload_personal_document_ocr_stage, hins]
  · simp [process_educational_document_ocr_stage, hins]

/-- Witness for C4 at a 30-character OCR output (the length hypothesis
discharged by evaluation; the LLM collaborators here would succeed if
called, so the `llm_called = false` component shows no call happened). -/
theorem ocr_insufficient_text_spec_witness :
    upload_personal_document_ocr_stage "w1" (some "/tmp/doc.jpg")
        (some "only thirty characters of txt!")
        (fun _ => some ⟨.str "A", .missing, .missing⟩) true =
      ⟨[⟨"w1", "personal", "only thirty characters of txt!", none,
         some "/tmp/doc.jpg", some "failed",
         some "OCR extraction failed or returned insufficient text"⟩],
       none, false,
       ⟨400, "Failed to extract text from document. Please upload a clearer image.",
        some "OCR_EXTRACTION_FAILED"⟩⟩ ∧
    process_educational_document_ocr_stage "w1" "10th" (some "/tmp/doc.jpg")
        (some "only thirty characters of txt!") (fun _ => some (0 : ℕ)) =
      ⟨[⟨"w1", "10th", "only thirty characters of txt!", none,
         some "/tmp/doc.jpg", some "failed", some "OCR extraction failed"⟩],
       false, (some "/tmp/doc.jpg", none)⟩ :=
  ocr_insufficient_text_spec "w1" "10th" (some "/tmp/doc.jpg")
    (some "only thirty characters of txt!")
    (fun _ => some ⟨.str "A", .missing, .missing⟩) (fun _ => some (0 : ℕ)) true
    (by decide)

/-- C9, counterexample: `verify_documents` does not treat a null field like a
missing one — `personal_data.get("name", "").strip()` raises AttributeError
when the stored value is `None`, while the same document with the key absent
returns a result. -/
theorem verify_documents_raises_on_null :
    verify_documents (some ⟨FieldVal.null, FieldVal.missing⟩)
        (some ⟨FieldVal.str "a", FieldVal.missing⟩) =
      .error (.attributeError "NoneType object has no attribute strip") ∧
    verify_documents (some ⟨FieldVal.missing, FieldVal.missing⟩)
        (some ⟨FieldVal.str "a", FieldVal.missing⟩) =
      .ok { verified := true,
            name_match := some true,
            name_message := some "Name not present in one document (acceptable)",
            dob_match := some true,
            dob_message := some "DOB not present in both documents (acceptable)",
            verification_status := "matched",
            error_message := none } := by
  constructor
  · rfl
  · rfl

/-- C9 amended: `compare_documents`, `compare_names` and `compare_dobs` depend
on each field only through its coercion to a string, which maps missing, null
and empty-string values alike to `""`, and they never raise; `verify_documents`
likewise treats a missing field and an empty-string field identically (it
depends on fields only through `.get(key, "").strip()`), but a null value
there raises AttributeError instead of being treated as absent. -/
theorem field_absence_equivalence :
    (∀ (ratio : String → String → ℕ) (t : ℚ)
       (x1 y1 x2 y2 x1' y1' x2' y2' : FieldVal),
      x1.getOr = x1'.getOr → y1.getOr = y1'.getOr →
      x2.getOr = x2'.getOr → y2.getOr = y2'.getOr →
      compare_documents ratio (some ⟨x1, y1⟩) (some ⟨x2, y2⟩) t =
        compare_documents ratio (some ⟨x1', y1'⟩) (some ⟨x2', y2'⟩) t) ∧
    (FieldVal.missing.getOr = "" ∧ FieldVal.null.getOr = "" ∧
      (FieldVal.str "").getOr = "") ∧
    ((∀ e, compare_names none e = compare_names (some "") e) ∧
     (∀ p, compare_names p none = compare_names p (some "")) ∧
     (∀ e, compare_dobs none e = compare_dobs (some "") e) ∧
     (∀ p, compare_dobs p none = compare_dobs p (some ""))) ∧
    (∀ (n1 d1 n2 d2 n1' d1' n2' d2' : FieldVal),
      n1.getStrip = n1'.getStrip → d1.getStrip = d1'.getStrip →
      n2.getStrip = n2'.getStrip → d2.getStrip = d2'.getStrip →
      verify_documents (some ⟨n1, d1⟩) (some ⟨n2, d2⟩) =
        verify_documents (some ⟨n1', d1'⟩) (some ⟨n2', d2'⟩)) ∧
    (FieldVal.missing.getStrip = .ok "" ∧ (FieldVal.str "").getStrip = .ok "" ∧
      FieldVal.null.getStrip =
        .error (.attributeError "NoneType object has no attribute strip")) := by
  refine ⟨?_, ⟨rfl, rfl, rfl⟩, ⟨fun e => rfl, fun p => rfl, fun e => rfl, fun p => rfl⟩,
    ?_, ⟨rfl, rfl, rfl⟩⟩
  · intro ratio t x1 y1 x2 y2 x1' y1' x2' y2' h1 h2 h3 h4
    simp only [compare_documents]
    rw [h1, h2, h3, h4]
  · intro n1 d1 n2 d2 n1' d1' n2' d2' h1 h2 h3 h4
    simp only [verify_documents]
    rw [h1, h2, h3, h4]

/-- Witness for C9 amended: a null name and a missing name give the same
comparison result in `compare_documents`, the congruence hypotheses
discharged by evaluation. -/
theorem field_absence_equivalence_witness :
    compare_documents (fun _ _ => 0)
        (some ⟨FieldVal.null, FieldVal.str "1998-05-02"⟩)
        (some ⟨FieldVal.str "B", FieldVal.missing⟩) (85/100) =
      compare_documents (fun _ _ => 0)
        (some ⟨FieldVal.missing, FieldVal.str "1998-05-02"⟩)
        (some ⟨FieldVal.str "B", FieldVal.str ""⟩) (85/100) :=
  field_absence_equivalence.1 (fun _ _ => 0) (85/100)
    FieldVal.null (FieldVal.str "1998-05-02") (FieldVal.str "B") FieldVal.missing
    FieldVal.missing (FieldVal.str "1998-05-02") (FieldVal.str "B")
    (FieldVal.str "") rfl rfl rfl rfl

/-- `Except` bind on a success. -/
lemma except_ok_bind {ε α β : Type} (a : α) (f : α → Except ε β) :
    (Except.ok a >>= f : Except ε β) = f a := rfl

/-- `Except` bind on an error. -/
lemma except_error_bind {ε α β : Type} (e : ε) (f : α → Except ε β) :
    ((Except.error e : Except ε α) >>= f : Except ε β) = Except.error e := rfl

/-- C5: the lenient matcher declares two present non-empty names a match iff
they are equal after normalization, or the word set of one is a subset of the
other, or the non-empty first or last names agree; DOBs match only by string
equality after `normalize_dob`; and `verify_documents` always reports one of
matched / mismatched / not_applicable, with not_applicable whenever the
educational record is absent or has neither name nor DOB. -/
theorem lenient_match_spec :
    (∀ pn en : String, pyStrip pn ≠ "" → pyStrip en ≠ "" →
      ((compare_names (some pn) (some en)).1 = true ↔
        (normalize_name (pyStrip pn) = normalize_name (pyStrip en) ∨
         wordSubset (pySplit (normalize_name (pyStrip pn)))
           (pySplit (normalize_name (pyStrip en))) = true ∨
         wordSubset (pySplit (normalize_name (pyStrip en)))
           (pySplit (normalize_name (pyStrip pn))) = true ∨
         ((extract_first_last_name (normalize_name (pyStrip pn))).1 ≠ "" ∧
          (extract_first_last_name (normalize_name (pyStrip pn))).1 =
            (extract_first_last_name (normalize_name (pyStrip en))).1) ∨
         ((extract_first_last_name (normalize_name (pyStrip pn))).2 ≠ "" ∧
          (extract_first_last_name (normalize_name (pyStrip pn))).2 =
            (extract_first_last_name (normalize_name (pyStrip en))).2)))) ∧
    (∀ pd ed : String, pyStrip pd ≠ "" → pyStrip ed ≠ "" →
      ((compare_dobs (some pd) (some ed)).1 = true ↔
        normalize_dob (pyStrip pd) = normalize_dob (pyStrip ed))) ∧
    (∀ (p e : Option VDoc) (r : VResult), verify_documents p e = .ok r →
      r.verification_status = "matched" ∨ r.verification_status = "mismatched" ∨
      r.verification_status = "not_applicable") ∧
    (∀ (pd : VDoc) (r : VResult), verify_documents (some pd) none = .ok r →
      r.verification_status = "not_applicable") ∧
    (∀ (pd ed : VDoc) (r : VResult),
      ed.name.getStrip = .ok "" → ed.dob.getStrip = .ok "" →
      verify_documents (some pd) (some ed) = .ok r →
      r.verification_status = "not_applicable") := by
  refine ⟨?_, ?_, ?_, ?_, ?_⟩
  · intro pn en hp he
    simp only [compare_names, Option.getD_some]
    rw [if_neg (by simp [hp]), if_neg (by simp [hp, he])]
    split_ifs with h1 h2 h3 <;> (simp_all; try tauto)
  · intro pd ed hp he
    simp only [compare_dobs, Option.getD_some]
    rw [if_neg (by simp [hp]), if_neg (by simp [hp, he])]
    split_ifs with h1 <;> simp_all
  · intro p e r h
    match p with
    | none =>
      simp only [verify_documents, Except.ok.injEq] at h
      subst h
      simp
    | some pd =>
      cases hn : pd.name.getStrip with
      | error e1 =>
        simp [verify_documents, hn, except_error_bind] at h
      | ok s1 =>
        cases hd : pd.dob.getStrip with
        | error e2 =>
          simp [verify_documents, hn, hd, except_ok_bind, except_error_bind] at h
        | ok s2 =>
          match e with
          | none =>
            simp only [verify_documents, hn, hd, except_ok_bind, pure,
              Except.pure, Except.ok.injEq] at h
            subst h
            simp
          | some ed =>
            cases hn2 : ed.name.getStrip with
            | error e3 =>
              simp [verify_documents, hn, hd, hn2, except_ok_bind,
                except_error_bind] at h
            | ok s3 =>
              cases hd2 : ed.dob.getStrip with
              | error e4 =>
                simp [verify_documents, hn, hd, hn2, hd2, except_ok_bind,
                  except_error_bind] at h
              | ok s4 =>
                simp only [verify_documents, hn, hd, hn2, hd2,
                  except_ok_bind] at h
                split_ifs at h <;>
                  (simp only [pure, Except.pure, Except.ok.injEq] at h
                   subst h
                   simp)
  · intro pd r h
    cases hn : pd.name.getStrip with
    | error e1 => simp [verify_documents, hn, except_error_bind] at h
    | ok s1 =>
      cases hd : pd.dob.getStrip with
      | error e2 =>
        simp [verify_documents, hn, hd, except_ok_bind, except_error_bind] at h
      | ok s2 =>
        simp only [verify_documents, hn, hd, except_ok_bind, pure,
          Except.pure, Except.ok.injEq] at h
        subst h
        rfl
  · intro pd ed r hn2 hd2 h
    cases hn : pd.name.getStrip with
    | error e1 => simp [verify_documents, hn, except_error_bind] at h
    | ok s1 =>
      cases hd : pd.dob.getStrip with
      | error e2 =>
        simp [verify_documents, hn, hd, except_ok_bind, except_error_bind] at h
      | ok s2 =>
        simp only [verify_documents, hn, hd, hn2, hd2, except_ok_bind] at h
        rw [if_pos (by simp)] at h
        simp only [pure, Except.pure, Except.ok.injEq] at h
        subst h
        rfl

/-- Witness for C5: "John Smith" vs "Smith" matches through the word-subset
clause, the hypotheses discharged by evaluation. -/
theorem lenient_match_spec_witness :
    (compare_names (some "John Smith") (some "Smith")).1 = true :=
  (lenient_match_spec.1 "John Smith" "Smith" (by decide) (by decide)).mpr
    (Or.inr (Or.inr (Or.inl (by decide))))

/-- A digit character is not Python whitespace. -/
lemma digit_not_pySpace {c : Char} (h : c.isDigit = true) : pySpace c = false := by
  revert h
  simp only [Char.isDigit, pySpace]
  intro h
  by_contra hs
  simp only [Bool.not_eq_false, Bool.or_eq_true, decide_eq_true_eq] at hs
  rcases hs with ((((rfl | rfl) | rfl) | rfl) | rfl) | rfl <;> simp_all

/-- A digit character is not a date separator. -/
lemma digit_not_dateSep {c : Char} (h : c.isDigit = true) : dateSep c = false := by
  simp only [dateSep, Bool.or_eq_false_iff]
  refine ⟨⟨?_, ?_⟩, digit_not_pySpace h⟩ <;>
    · revert h
      simp only [Char.isDigit]
      intro h
      by_contra hs
      simp only [Bool.not_eq_false, decide_eq_true_eq] at hs
      subst hs
      simp_all

/-- A date separator is not a digit. -/
lemma dateSep_not_digit {c : Char} (h : dateSep c = true) : c.isDigit = false := by
  by_contra hd
  simp only [Bool.not_eq_false] at hd
  rw [digit_not_dateSep hd] at h
  exact Bool.false_ne_true h

/-- A dash is neither a digit nor a separator nor whitespace: only needed as
`dateSep '-' = false` below. -/
lemma dash_not_dateSep : dateSep '-' = false := by decide

/-- Dropping twice drops once. -/
lemma dropWhile_idem (p : Char → Bool) (l : List Char) :
    (l.dropWhile p).dropWhile p = l.dropWhile p := by
  induction l with
  | nil => rfl
  | cons c t ih =>
    by_cases hc : p c = true
    · simp [List.dropWhile_cons, hc, ih]
    · simp only [Bool.not_eq_true] at hc
      simp [List.dropWhile_cons, hc]

/-- If the head survives the filter, nothing is dropped. -/
lemma dropWhile_eq_self_of_head (p : Char → Bool) (l : List Char)
    (h : ∀ c, l.head? = some c → p c = false) : l.dropWhile p = l := by
  cases l with
  | nil => rfl
  | cons c t => simp [List.dropWhile_cons, h c rfl]

/-- A list returned by `dropWhile` keeps nothing droppable in front. -/
lemma dropWhile_head (p : Char → Bool) (l : List Char) :
    ∀ c, (l.dropWhile p).head? = some c → p c = false := by
  induction l with
  | nil => simp
  | cons c t ih =>
    intro d hd
    by_cases hc : p c = true
    · rw [List.dropWhile_cons, if_pos hc] at hd
      exact ih d hd
    · simp only [Bool.not_eq_true] at hc
      rw [List.dropWhile_cons, if_neg (by simp [hc])] at hd
      simp only [List.head?_cons, Option.some.injEq] at hd
      subst hd
      exact hc

/-- A list whose first and last characters are not whitespace strips to
itself. -/
lemma stripChars_eq_self (l : List Char)
    (h1 : ∀ c, l.head? = some c → pySpace c = false)
    (h2 : ∀ c, l.getLast? = some c → pySpace c = false) : stripChars l = l := by
  unfold stripChars
  rw [dropWhile_eq_self_of_head pySpace l h1]
  rw [dropWhile_eq_self_of_head pySpace l.reverse (by simpa [List.head?_reverse] using h2)]
  exact List.reverse_reverse l

/-- The first character of a stripped list is not whitespace. -/
lemma stripChars_head (l : List Char) :
    ∀ c, (stripChars l).head? = some c → pySpace c = false := by
  intro c hc
  unfold stripChars at hc
  obtain ⟨w, hw⟩ :=
    List.dropWhile_suffix (l := (l.dropWhile pySpace).reverse) pySpace
  have hA : l.dropWhile pySpace =
      ((l.dropWhile pySpace).reverse.dropWhile pySpace).reverse ++ w.reverse := by
    have h2 := congrArg List.reverse hw
    simpa [List.reverse_append] using h2.symm
  rcases hB : ((l.dropWhile pySpace).reverse.dropWhile pySpace).reverse
    with _ | ⟨d, t⟩
  · rw [hB] at hc; simp at hc
  · rw [hB] at hc
    simp only [List.head?_cons, Option.some.injEq] at hc
    subst hc
    apply dropWhile_head pySpace l
    rw [hA, hB]
    simp

/-- The last character of a stripped list is not whitespace. -/
lemma stripChars_last (l : List Char) :
    ∀ c, (stripChars l).getLast? = some c → pySpace c = false := by
  intro c hc
  unfold stripChars at hc
  rw [List.getLast?_reverse] at hc
  exact dropWhile_head pySpace (l.dropWhile pySpace).reverse c hc

/-- Stripping is idempotent. -/
lemma stripChars_idem (l : List Char) :
    stripChars (stripChars l) = stripChars l :=
  stripChars_eq_self (stripChars l) (stripChars_head l) (stripChars_last l)

/-- Destructure a canonical `DD-MM-YYYY` character list. -/
lemma isCanonDob_shape {l : List Char} (h : isCanonDob l = true) :
    ∃ a b c d e f g i : Char, l = [a, b, '-', c, d, '-', e, f, g, i] ∧
      a.isDigit = true ∧ b.isDigit = true ∧ c.isDigit = true ∧
      d.isDigit = true ∧ e.isDigit = true ∧ f.isDigit = true ∧
      g.isDigit = true ∧ i.isDigit = true := by
  rcases l with _ | ⟨a, l⟩; · simp [isCanonDob] at h
  rcases l with _ | ⟨b, l⟩; · simp [isCanonDob] at h
  rcases l with _ | ⟨s1, l⟩; · simp [isCanonDob] at h
  rcases l with _ | ⟨c, l⟩; · simp [isCanonDob] at h
  rcases l with _ | ⟨d, l⟩; · simp [isCanonDob] at h
  rcases l with _ | ⟨s2, l⟩; · simp [isCanonDob] at h
  rcases l with _ | ⟨e, l⟩; · simp [isCanonDob] at h
  rcases l with _ | ⟨f, l⟩; · simp [isCanonDob] at h
  rcases l with _ | ⟨g, l⟩; · simp [isCanonDob] at h
  rcases l with _ | ⟨i, l⟩; · simp [isCanonDob] at h
  rcases l with _ | ⟨x, l⟩
  · simp only [isCanonDob, Bool.and_eq_true, decide_eq_true_eq] at h
    obtain ⟨⟨⟨⟨⟨⟨⟨⟨⟨ha, hb⟩, hs1⟩, hc⟩, hd⟩, hs2⟩, he⟩, hf⟩, hg⟩, hi⟩ := h
    subst hs1; subst hs2
    exact ⟨a, b, c, d, e, f, g, i, rfl, ha, hb, hc, hd, he, hf, hg, hi⟩
  · simp [isCanonDob] at h

/-- A canonical list strips to itself (its ends are digits). -/
lemma isCanonDob_strip {l : List Char} (h : isCanonDob l = true) :
    stripChars l = l := by
  obtain ⟨a, b, c, d, e, f, g, i, rfl, ha, _, _, _, _, _, _, hi⟩ :=
    isCanonDob_shape h
  refine stripChars_eq_self _ ?_ ?_
  · intro x hx
    simp only [List.head?_cons, Option.some.injEq] at hx
    subst hx
    exact digit_not_pySpace ha
  · intro x hx
    simp only [List.getLast?_cons_cons, List.getLast?_singleton,
      Option.some.injEq] at hx
    subst hx
    exact digit_not_pySpace hi

/-- A canonical list contains no date-separator character. -/
lemma isCanonDob_no_sep {l : List Char} (h : isCanonDob l = true) :
    ∀ c ∈ l, dateSep c = false := by
  obtain ⟨a, b, c, d, e, f, g, i, rfl, ha, hb, hc, hd, he, hf, hg, hi⟩ :=
    isCanonDob_shape h
  intro x hx
  simp only [List.mem_cons, List.not_mem_nil, or_false] at hx
  rcases hx with rfl | rfl | rfl | rfl | rfl | rfl | rfl | rfl | rfl | rfl
  · exact digit_not_dateSep ha
  · exact digit_not_dateSep hb
  · exact dash_not_dateSep
  · exact digit_not_dateSep hc
  · exact digit_not_dateSep hd
  · exact dash_not_dateSep
  · exact digit_not_dateSep he
  · exact digit_not_dateSep hf
  · exact digit_not_dateSep hg
  · exact digit_not_dateSep hi

/-- Rebuilding a string from its characters is the identity. -/
lemma string_mk_data (s : String) : String.mk s.data = s := by
  cases s
  rfl

/-- A canonical input comes back unchanged from `normalize_dob`. -/
lemma normalize_dob_canon (s : String) (h : isCanonDob s.data = true) :
    normalize_dob s = s := by
  have hne : s ≠ "" := by
    intro he
    obtain ⟨a, b, c, d, e, f, g, i, hl, -⟩ := isCanonDob_shape h
    rw [he] at hl
    simp at hl
  simp only [normalize_dob, if_neg hne, isCanonDob_strip h, h, if_pos]

/-- `48 + k` is a digit character for `k < 10`. -/
lemma ofNat_digit_isDigit {k : ℕ} (hk : k < 10) :
    (Char.ofNat (48 + k)).isDigit = true := by
  interval_cases k <;> decide

/-- The two characters of `pad2` are digits. -/
lemma pad2_data (n : ℕ) :
    ∃ c1 c2 : Char, (pad2 n).data = [c1, c2] ∧
      c1.isDigit = true ∧ c2.isDigit = true := by
  refine ⟨Char.ofNat (48 + n / 10 % 10), Char.ofNat (48 + n % 10), rfl, ?_, ?_⟩
  · exact ofNat_digit_isDigit (Nat.mod_lt _ (by norm_num))
  · exact ofNat_digit_isDigit (Nat.mod_lt _ (by norm_num))

/-- The search-branch output of `normalize_dob` is canonical. -/
lemma formatted_canon (d m : ℕ) (y : List Char) (hy : y.length = 4)
    (hyd : ∀ c ∈ y, c.isDigit = true) :
    isCanonDob (pad2 d ++ "-" ++ pad2 m ++ "-" ++ String.mk y).data = true := by
  obtain ⟨c1, c2, hd2, hc1, hc2⟩ := pad2_data d
  obtain ⟨c3, c4, hm2, hc3, hc4⟩ := pad2_data m
  rcases y with _ | ⟨y1, y⟩; · simp at hy
  rcases y with _ | ⟨y2, y⟩; · simp at hy
  rcases y with _ | ⟨y3, y⟩; · simp at hy
  rcases y with _ | ⟨y4, y⟩; · simp at hy
  rcases y with _ | ⟨y5, y⟩
  swap; · simp at hy
  have h1 : y1.isDigit = true := hyd y1 (by simp)
  have h2 : y2.isDigit = true := hyd y2 (by simp)
  have h3 : y3.isDigit = true := hyd y3 (by simp)
  have h4 : y4.isDigit = true := hyd y4 (by simp)
  simp only [String.data_append, hd2, hm2]
  simp [isCanonDob, hc1, hc2, hc3, hc4, h1, h2, h3, h4]

/-- Four matched year characters are exactly four digits. -/
lemma fourDigits_spec {cs y : List Char} (h : fourDigits cs = some y) :
    y.length = 4 ∧ ∀ c ∈ y, c.isDigit = true := by
  rcases cs with _ | ⟨a, cs⟩; · simp [fourDigits] at h
  rcases cs with _ | ⟨b, cs⟩; · simp [fourDigits] at h
  rcases cs with _ | ⟨c, cs⟩; · simp [fourDigits] at h
  rcases cs with _ | ⟨d, cs⟩; · simp [fourDigits] at h
  simp only [fourDigits] at h
  split_ifs at h with hd
  simp only [Option.some.injEq] at h
  subst h
  simp only [Bool.and_eq_true] at hd
  refine ⟨rfl, ?_⟩
  intro x hx
  simp only [List.mem_cons, List.not_mem_nil, or_false] at hx
  rcases hx with rfl | rfl | rfl | rfl
  · exact hd.1.1.1
  · exact hd.1.1.2
  · exact hd.1.2
  · exact hd.2

/-- The year group of `sepThenYear` is four digits. -/
lemma sepThenYear_spec {cs y : List Char} (h : sepThenYear cs = some y) :
    y.length = 4 ∧ ∀ c ∈ y, c.isDigit = true := by
  unfold sepThenYear at h
  cases hm : munchSep cs with
  | none => rw [hm] at h; exact absurd h (by simp)
  | some rest => rw [hm] at h; exact fourDigits_spec h

/-- Unfold one greedy-then-fallback step of the backtracking engine. -/
lemma orElse_map_eq_some {α β : Type} {o : Option α} {f : α → β}
    {g : Unit → Option β} {v : β} (h : ((o.map f).orElse g) = some v) :
    (∃ a, o = some a ∧ f a = v) ∨ (o = none ∧ g () = some v) := by
  cases o with
  | none =>
    right
    refine ⟨rfl, ?_⟩
    simpa [Option.orElse, Option.map] using h
  | some a =>
    left
    refine ⟨a, rfl, ?_⟩
    simpa [Option.orElse, Option.map] using h

/-- Unfold a mapped option equation. -/
lemma map_eq_some_spec {α β : Type} {o : Option α} {f : α → β} {v : β}
    (h : o.map f = some v) : ∃ a, o = some a ∧ f a = v := by
  cases o with
  | none => simp [Option.map] at h
  | some a =>
    refine ⟨a, rfl, ?_⟩
    simpa [Option.map] using h

/-- The year group of `monthThenYear` is four digits. -/
lemma monthThenYear_spec {cs : List Char} {m : ℕ} {y : List Char}
    (h : monthThenYear cs = some (m, y)) :
    y.length = 4 ∧ ∀ c ∈ y, c.isDigit = true := by
  rcases cs with _ | ⟨a, cs⟩; · simp [monthThenYear] at h
  rcases cs with _ | ⟨b, cs⟩; · simp [monthThenYear] at h
  simp only [monthThenYear] at h
  by_cases h1 : (a.isDigit && b.isDigit) = true
  · rw [if_pos h1] at h
    rcases orElse_map_eq_some h with ⟨y2, hs, hv⟩ | ⟨hs, hg⟩
    · cases hv
      exact sepThenYear_spec hs
    · split_ifs at hg with hb
      obtain ⟨y2, hs2, hv⟩ := map_eq_some_spec hg
      cases hv
      exact sepThenYear_spec hs2
  · rw [if_neg h1] at h
    by_cases h2 : a.isDigit = true
    · rw [if_pos h2] at h
      obtain ⟨y2, hs2, hv⟩ := map_eq_some_spec h
      cases hv
      exact sepThenYear_spec hs2
    · rw [if_neg h2] at h
      exact absurd h (by simp)

/-- The year group of `sepThenMonth` is four digits. -/
lemma sepThenMonth_spec {cs : List Char} {m : ℕ} {y : List Char}
    (h : sepThenMonth cs = some (m, y)) :
    y.length = 4 ∧ ∀ c ∈ y, c.isDigit = true := by
  unfold sepThenMonth at h
  cases hm : munchSep cs with
  | none => rw [hm] at h; exact absurd h (by simp)
  | some rest => rw [hm] at h; exact monthThenYear_spec h

/-- The year group of `matchDate` is four digits. -/
lemma matchDate_spec {cs : List Char} {d m : ℕ} {y : List Char}
    (h : matchDate cs = some (d, m, y)) :
    y.length = 4 ∧ ∀ c ∈ y, c.isDigit = true := by
  rcases cs with _ | ⟨a, cs⟩; · simp [matchDate] at h
  rcases cs with _ | ⟨b, cs⟩; · simp [matchDate] at h
  simp only [matchDate] at h
  by_cases h1 : (a.isDigit && b.isDigit) = true
  · rw [if_pos h1] at h
    rcases orElse_map_eq_some h with ⟨my, hs, hv⟩ | ⟨hs, hg⟩
    · cases hv
      exact sepThenMonth_spec (m := my.1) (by simpa using hs)
    · split_ifs at hg with hb
      obtain ⟨my, hs2, hv⟩ := map_eq_some_spec hg
      cases hv
      exact sepThenMonth_spec (m := my.1) (by simpa using hs2)
  · rw [if_neg h1] at h
    by_cases h2 : a.isDigit = true
    · rw [if_pos h2] at h
      obtain ⟨my, hs2, hv⟩ := map_eq_some_spec h
      cases hv
      exact sepThenMonth_spec (m := my.1) (by simpa using hs2)
    · rw [if_neg h2] at h
      exact absurd h (by simp)

/-- The year group of `searchDate` is four digits. -/
lemma searchDate_spec {cs : List Char} {d m : ℕ} {y : List Char}
    (h : searchDate cs = some (d, m, y)) :
    y.length = 4 ∧ ∀ c ∈ y, c.isDigit = true := by
  induction cs with
  | nil => simp [searchDate] at h
  | cons c rest ih =>
    simp only [searchDate] at h
    cases hm : matchDate (c :: rest) with
    | some r =>
      rw [hm] at h
      simp only [Option.some.injEq] at h
      subst h
      exact matchDate_spec hm
    | none =>
      rw [hm] at h
      exact ih h

/-- Branch equation: the search branch of `normalize_dob`. -/
lemma normalize_dob_search (s : String) (hne : s ≠ "")
    (hc : isCanonDob (stripChars s.data) = false) {d m : ℕ} {y : List Char}
    (hsd : searchDate (stripChars s.data) = some (d, m, y)) :
    normalize_dob s = pad2 d ++ "-" ++ pad2 m ++ "-" ++ String.mk y := by
  simp only [normalize_dob, if_neg hne, hc, Bool.false_eq_true, if_false, hsd]

/-- Branch equation: the eight-digit branch of `normalize_dob`. -/
lemma normalize_dob_eight (s : String) (hne : s ≠ "")
    (hc : isCanonDob (stripChars s.data) = false)
    (hsd : searchDate (stripChars s.data) = none)
    (h8 : isEightDigits (stripChars s.data) = true) :
    normalize_dob s = String.mk ((stripChars s.data).take 2 ++
      '-' :: ((stripChars s.data).drop 2).take 2 ++
      '-' :: (stripChars s.data).drop 4) := by
  simp only [normalize_dob, if_neg hne, hc, Bool.false_eq_true, if_false, hsd,
    h8, if_true]

/-- Branch equation: the permissive fallback of `normalize_dob` returns the
stripped input. -/
lemma normalize_dob_fallback (s : String) (hne : s ≠ "")
    (hc : isCanonDob (stripChars s.data) = false)
    (hsd : searchDate (stripChars s.data) = none)
    (h8 : isEightDigits (stripChars s.data) = false) :
    normalize_dob s = String.mk (stripChars s.data) := by
  simp only [normalize_dob, if_neg hne, hc, Bool.false_eq_true, if_false, hsd,
    h8]

/-- The reformatted eight-digit input is canonical. -/
lemma eight_canon {t : List Char} (h8 : isEightDigits t = true) :
    isCanonDob (t.take 2 ++ '-' :: (t.drop 2).take 2 ++ '-' :: t.drop 4)
      = true := by
  simp only [isEightDigits, Bool.and_eq_true, decide_eq_true_eq,
    List.all_eq_true] at h8
  obtain ⟨hlen, hdig⟩ := h8
  rcases t with _ | ⟨a, t⟩; · simp at hlen
  rcases t with _ | ⟨b, t⟩; · simp at hlen
  rcases t with _ | ⟨c, t⟩; · simp at hlen
  rcases t with _ | ⟨d, t⟩; · simp at hlen
  rcases t with _ | ⟨e, t⟩; · simp at hlen
  rcases t with _ | ⟨f, t⟩; · simp at hlen
  rcases t with _ | ⟨g, t⟩; · simp at hlen
  rcases t with _ | ⟨i, t⟩; · simp at hlen
  rcases t with _ | ⟨x, t⟩
  swap; · simp at hlen
  simp only [List.take, List.drop, List.cons_append, List.nil_append]
  simp [isCanonDob, hdig a (by simp), hdig b (by simp), hdig c (by simp),
    hdig d (by simp), hdig e (by simp), hdig f (by simp), hdig g (by simp),
    hdig i (by simp)]

/-- C7: `normalize_dob` is idempotent. -/
theorem normalize_dob_idempotent (x : String) :
    normalize_dob (normalize_dob x) = normalize_dob x := by
  by_cases hx : x = ""
  · subst hx; rfl
  · by_cases hc : isCanonDob (stripChars x.data) = true
    · have h1 : normalize_dob x = String.mk (stripChars x.data) := by
        simp only [normalize_dob, if_neg hx, hc, if_true]
      rw [h1]
      exact normalize_dob_canon _ (by simpa using hc)
    · rw [Bool.not_eq_true] at hc
      cases hsd : searchDate (stripChars x.data) with
      | some r =>
        obtain ⟨d, m, y⟩ := r
        rw [normalize_dob_search x hx hc hsd]
        exact normalize_dob_canon _
          (formatted_canon d m y (searchDate_spec hsd).1 (searchDate_spec hsd).2)
      | none =>
        by_cases h8 : isEightDigits (stripChars x.data) = true
        · rw [normalize_dob_eight x hx hc hsd h8]
          exact normalize_dob_canon _ (by simpa using eight_canon h8)
        · rw [Bool.not_eq_true] at h8
          rw [normalize_dob_fallback x hx hc hsd h8]
          rcases ht0 : stripChars x.data with _ | ⟨c0, t0⟩
          · rfl
          · have hne2 : String.mk (stripChars x.data) ≠ "" := by
              rw [ht0]
              intro hcon
              have := congrArg String.data hcon
              simp at this
            have hidem : stripChars (String.mk (stripChars x.data)).data =
                stripChars x.data := stripChars_idem x.data
            rw [← ht0]
            rw [normalize_dob_fallback _ hne2 (by rw [hidem]; exact hc)
              (by rw [hidem]; exact hsd) (by rw [hidem]; exact h8)]
            rw [hidem]

/-- Dropping separators runs past an all-separator block and stops at the
first non-separator. -/
lemma dropWhile_sep (w : List Char) (hw : ∀ c ∈ w, dateSep c = true)
    (x : Char) (hx : dateSep x = false) (r : List Char) :
    List.dropWhile dateSep (w ++ x :: r) = x :: r := by
  induction w with
  | nil => simp [List.dropWhile_cons, hx]
  | cons c t ih =>
    rw [List.cons_append, List.dropWhile_cons, if_pos (hw c (by simp))]
    exact ih (fun d hd => hw d (by simp [hd]))

/-- A maximal separator run is munched whole. -/
lemma munchSep_run (c : Char) (w : List Char) (x : Char) (r : List Char)
    (hc : dateSep c = true) (hw : ∀ d ∈ w, dateSep d = true)
    (hx : dateSep x = false) :
    munchSep (c :: (w ++ x :: r)) = some (x :: r) := by
  simp only [munchSep]
  rw [if_pos hc, dropWhile_sep w hw x hx r]

/-- `sepThenYear` across a separator run. -/
lemma sepThenYear_run (c : Char) (w : List Char) (x : Char) (r : List Char)
    (hc : dateSep c = true) (hw : ∀ d ∈ w, dateSep d = true)
    (hx : dateSep x = false) :
    sepThenYear (c :: (w ++ x :: r)) = fourDigits (x :: r) := by
  unfold sepThenYear
  rw [munchSep_run c w x r hc hw hx]

/-- `sepThenMonth` across a separator run. -/
lemma sepThenMonth_run (c : Char) (w : List Char) (x : Char) (r : List Char)
    (hc : dateSep c = true) (hw : ∀ d ∈ w, dateSep d = true)
    (hx : dateSep x = false) :
    sepThenMonth (c :: (w ++ x :: r)) = monthThenYear (x :: r) := by
  unfold sepThenMonth
  rw [munchSep_run c w x r hc hw hx]

/-- Exactly four digit characters match the year group. -/
lemma fourDigits_exact (y1 y2 y3 y4 : Char) (h1 : y1.isDigit = true)
    (h2 : y2.isDigit = true) (h3 : y3.isDigit = true) (h4 : y4.isDigit = true) :
    fourDigits [y1, y2, y3, y4] = some [y1, y2, y3, y4] := by
  simp [fourDigits, h1, h2, h3, h4]

/-- A one-digit month before a separator run and the year group. -/
lemma monthThenYear_exact1 (m1 : Char) (hm : m1.isDigit = true)
    (c : Char) (w : List Char) (hc : dateSep c = true)
    (hw : ∀ d ∈ w, dateSep d = true)
    (y1 y2 y3 y4 : Char) (h1 : y1.isDigit = true) (h2 : y2.isDigit = true)
    (h3 : y3.isDigit = true) (h4 : y4.isDigit = true) :
    monthThenYear (m1 :: c :: (w ++ [y1, y2, y3, y4])) =
      some (digVal m1, [y1, y2, y3, y4]) := by
  have hcd : c.isDigit = false := dateSep_not_digit hc
  simp only [monthThenYear]
  rw [if_neg (by simp [hcd]), if_pos hm]
  have hrun : sepThenYear (c :: (w ++ y1 :: [y2, y3, y4])) =
      fourDigits (y1 :: [y2, y3, y4]) :=
    sepThenYear_run c w y1 [y2, y3, y4] hc hw (digit_not_dateSep h1)
  rw [show (c :: (w ++ [y1, y2, y3, y4])) = c :: (w ++ y1 :: [y2, y3, y4]) from rfl]
  rw [hrun, fourDigits_exact y1 y2 y3 y4 h1 h2 h3 h4]
  rfl

/-- A two-digit month before a separator run and the year group. -/
lemma monthThenYear_exact2 (m1 m2 : Char) (hm1 : m1.isDigit = true)
    (hm2 : m2.isDigit = true) (c : Char) (w : List Char) (hc : dateSep c = true)
    (hw : ∀ d ∈ w, dateSep d = true)
    (y1 y2 y3 y4 : Char) (h1 : y1.isDigit = true) (h2 : y2.isDigit = true)
    (h3 : y3.isDigit = true) (h4 : y4.isDigit = true) :
    monthThenYear (m1 :: m2 :: (c :: (w ++ [y1, y2, y3, y4]))) =
      some (10 * digVal m1 + digVal m2, [y1, y2, y3, y4]) := by
  simp only [monthThenYear]
  rw [if_pos (by simp [hm1, hm2])]
  have hrun : sepThenYear (c :: (w ++ y1 :: [y2, y3, y4])) =
      fourDigits (y1 :: [y2, y3, y4]) :=
    sepThenYear_run c w y1 [y2, y3, y4] hc hw (digit_not_dateSep h1)
  rw [show (c :: (w ++ [y1, y2, y3, y4])) = c :: (w ++ y1 :: [y2, y3, y4]) from rfl]
  rw [hrun, fourDigits_exact y1 y2 y3 y4 h1 h2 h3 h4]
  rfl

/-- A one-digit day: the two-digit attempt dies on the separator and the
engine matches day, separator run, then the month tail. -/
lemma matchDate_exact1 (a : Char) (ha : a.isDigit = true) (c : Char)
    (w : List Char) (hc : dateSep c = true) (hw : ∀ d ∈ w, dateSep d = true)
    (x : Char) (r : List Char) (hx : dateSep x = false) {M : ℕ}
    {y : List Char} (hM : monthThenYear (x :: r) = some (M, y)) :
    matchDate (a :: c :: (w ++ x :: r)) = some (digVal a, M, y) := by
  have hcd := dateSep_not_digit hc
  simp only [matchDate]
  rw [if_neg (by simp [hcd]), if_pos ha, sepThenMonth_run c w x r hc hw hx, hM]
  rfl

/-- A two-digit day, matched greedily. -/
lemma matchDate_exact2 (a b : Char) (ha : a.isDigit = true)
    (hb : b.isDigit = true) (c : Char) (w : List Char) (hc : dateSep c = true)
    (hw : ∀ d ∈ w, dateSep d = true) (x : Char) (r : List Char)
    (hx : dateSep x = false) {M : ℕ} {y : List Char}
    (hM : monthThenYear (x :: r) = some (M, y)) :
    matchDate (a :: b :: (c :: (w ++ x :: r))) =
      some (10 * digVal a + digVal b, M, y) := by
  simp only [matchDate]
  rw [if_pos (by simp [ha, hb]), sepThenMonth_run c w x r hc hw hx, hM]
  rfl

/-- A match at the first position is the search result. -/
lemma searchDate_cons_of_match {c : Char} {rest : List Char}
    {r : ℕ × ℕ × List Char} (h : matchDate (c :: rest) = some r) :
    searchDate (c :: rest) = some r := by
  simp only [searchDate]
  rw [h]

/-- No separator can be munched from a digit string. -/
lemma munchSep_digits (l : List Char) (h : ∀ c ∈ l, c.isDigit = true) :
    munchSep l = none := by
  cases l with
  | nil => rfl
  | cons c rest =>
    simp only [munchSep]
    rw [if_neg (by simp [digit_not_dateSep (h c (by simp))])]

/-- The month tail cannot start inside a digit string. -/
lemma sepThenMonth_digits (l : List Char) (h : ∀ c ∈ l, c.isDigit = true) :
    sepThenMonth l = none := by
  unfold sepThenMonth
  rw [munchSep_digits l h]

/-- The date pattern never matches inside an all-digit string. -/
lemma matchDate_digits (l : List Char) (h : ∀ c ∈ l, c.isDigit = true) :
    matchDate l = none := by
  rcases l with _ | ⟨a, l⟩; · rfl
  rcases l with _ | ⟨b, l⟩; · rfl
  have ha := h a (by simp)
  have hb := h b (by simp)
  simp only [matchDate]
  rw [if_pos (by simp [ha, hb]),
    sepThenMonth_digits l (fun c hc => h c (by simp [hc]))]
  simp [Option.orElse, digit_not_dateSep hb]

/-- The date search fails on an all-digit string. -/
lemma searchDate_digits (l : List Char) (h : ∀ c ∈ l, c.isDigit = true) :
    searchDate l = none := by
  induction l with
  | nil => rfl
  | cons c rest ih =>
    simp only [searchDate]
    rw [matchDate_digits (c :: rest) h]
    exact ih (fun d hd => h d (by simp [hd]))

/-- A canonical list has exactly ten characters. -/
lemma isCanonDob_len {l : List Char} (h : isCanonDob l = true) :
    l.length = 10 := by
  obtain ⟨a, b, c, d, e, f, g, i, rfl, -⟩ := isCanonDob_shape h
  rfl

/-- The last element of a list ending in four given characters. -/
lemma getLast?_append_four (l : List Char) (y1 y2 y3 y4 : Char) :
    (l ++ [y1, y2, y3, y4]).getLast? = some y4 := by
  rw [← List.head?_reverse]
  simp [List.reverse_append]

/-- Value of a single digit group. -/
lemma digitsVal_one (a : Char) : digitsVal [a] = digVal a := by
  simp [digitsVal]

/-- Value of a two-digit group. -/
lemma digitsVal_two (a b : Char) :
    digitsVal [a, b] = 10 * digVal a + digVal b := by
  simp [digitsVal, List.foldl]

/-- C6, counterexample: `"x1/2/1990"` is not of any of the claimed shapes
(leading junk), yet `normalize_dob` rewrites it to the embedded date instead
of returning it unchanged — `re.search` matches substrings; likewise a padded
input is returned stripped rather than unchanged. -/
theorem normalize_dob_rewrites_other_shapes :
    normalize_dob "x1/2/1990" = "01-02-1990" ∧ "x1/2/1990" ≠ "01-02-1990" ∧
    normalize_dob " abc " = "abc" ∧ (" abc " : String) ≠ "abc" := by
  refine ⟨rfl, by decide, rfl, by decide⟩

/-- Fold the strip identity into the search branch. -/
lemma normalize_dob_of_match (s : String) (hne : s ≠ "")
    (hcanon : isCanonDob s.data = false)
    (hstrip : stripChars s.data = s.data) {d m : ℕ} {y : List Char}
    (hsd : searchDate s.data = some (d, m, y)) :
    normalize_dob s = pad2 d ++ "-" ++ pad2 m ++ "-" ++ String.mk y :=
  normalize_dob_search s hne (by rw [hstrip]; exact hcanon)
    (by rw [hstrip]; exact hsd)

/-- A list with digit characters at both ends strips to itself. -/
lemma strip_of_ends (l mid : List Char) (a y1 y2 y3 y4 : Char)
    (hl : l = a :: (mid ++ [y1, y2, y3, y4])) (ha : a.isDigit = true)
    (h4 : y4.isDigit = true) : stripChars l = l := by
  subst hl
  apply stripChars_eq_self
  · intro c hc
    simp only [List.head?_cons, Option.some.injEq] at hc
    subst hc
    exact digit_not_pySpace ha
  · intro c hc
    rw [show a :: (mid ++ [y1, y2, y3, y4]) =
        (a :: mid) ++ [y1, y2, y3, y4] from rfl,
      getLast?_append_four] at hc
    simp only [Option.some.injEq] at hc
    subst hc
    exact digit_not_pySpace h4

/-- A list containing a separator character is not canonical. -/
lemma canon_false_of_sep (l : List Char) (c : Char) (hc : dateSep c = true)
    (hmem : c ∈ l) : isCanonDob l = false := by
  by_contra h
  rw [Bool.not_eq_false] at h
  rw [isCanonDob_no_sep h c hmem] at hc
  exact Bool.false_ne_true hc

/-- C6 amended: canonical input is returned unchanged; an input that is
exactly day, separator run, month, separator run, four-digit year is
zero-padded and dashed; an exactly-eight-digit input is reformatted
`DD-MM-YYYY`; and any other input — more precisely, any input whose stripped
form is not canonical, contains no date substring anywhere (the engine
searches, it does not anchor), and is not eight digits — is returned with
surrounding whitespace stripped but otherwise unchanged. -/
theorem normalize_dob_spec :
    (∀ s : String, isCanonDob s.data = true → normalize_dob s = s) ∧
    (∀ (s : String) (d sep1 m sep2 y : List Char),
      s.data = d ++ sep1 ++ m ++ sep2 ++ y →
      d ≠ [] → d.length ≤ 2 → (∀ c ∈ d, c.isDigit = true) →
      sep1 ≠ [] → (∀ c ∈ sep1, dateSep c = true) →
      m ≠ [] → m.length ≤ 2 → (∀ c ∈ m, c.isDigit = true) →
      sep2 ≠ [] → (∀ c ∈ sep2, dateSep c = true) →
      y.length = 4 → (∀ c ∈ y, c.isDigit = true) →
      normalize_dob s =
        pad2 (digitsVal d) ++ "-" ++ pad2 (digitsVal m) ++ "-" ++ String.mk y) ∧
    (∀ s : String, s.data.length = 8 → (∀ c ∈ s.data, c.isDigit = true) →
      normalize_dob s = String.mk (s.data.take 2 ++ '-' ::
        (s.data.drop 2).take 2 ++ '-' :: s.data.drop 4)) ∧
    (∀ s : String, s ≠ "" → isCanonDob (stripChars s.data) = false →
      searchDate (stripChars s.data) = none →
      isEightDigits (stripChars s.data) = false →
      normalize_dob s = String.mk (stripChars s.data)) ∧
    normalize_dob "" = "" := by
  refine ⟨fun s h => normalize_dob_canon s h, ?_, ?_, normalize_dob_fallback, rfl⟩
  · intro s d sep1 m sep2 y hdata hd0 hdlen hdd hs10 hs1 hm0 hmlen hmd
      hs20 hs2 hylen hyd
    rcases sep1 with _ | ⟨c1, w1⟩; · exact absurd rfl hs10
    rcases sep2 with _ | ⟨c2, w2⟩; · exact absurd rfl hs20
    rcases y with _ | ⟨y1, y⟩; · simp at hylen
    rcases y with _ | ⟨y2, y⟩; · simp at hylen
    rcases y with _ | ⟨y3, y⟩; · simp at hylen
    rcases y with _ | ⟨y4, y⟩; · simp at hylen
    rcases y with _ | ⟨y5, y⟩
    swap; · simp at hylen
    have hc1 : dateSep c1 = true := hs1 c1 (by simp)
    have hw1 : ∀ x ∈ w1, dateSep x = true := fun x hx => hs1 x (by simp [hx])
    have hc2 : dateSep c2 = true := hs2 c2 (by simp)
    have hw2 : ∀ x ∈ w2, dateSep x = true := fun x hx => hs2 x (by simp [hx])
    have hy1 : y1.isDigit = true := hyd y1 (by simp)
    have hy2 : y2.isDigit = true := hyd y2 (by simp)
    have hy3 : y3.isDigit = true := hyd y3 (by simp)
    have hy4 : y4.isDigit = true := hyd y4 (by simp)
    rcases d with _ | ⟨a, d⟩; · exact absurd rfl hd0
    rcases m with _ | ⟨q1, m⟩; · exact absurd rfl hm0
    have ha : a.isDigit = true := hdd a (by simp)
    have hq1 : q1.isDigit = true := hmd q1 (by simp)
    rcases d with _ | ⟨b, d⟩
    · rcases m with _ | ⟨q2, m⟩
      · -- one-digit day, one-digit month
        have hdata2 : s.data =
            a :: c1 :: (w1 ++ q1 :: (c2 :: (w2 ++ [y1, y2, y3, y4]))) := by
          rw [hdata]; simp
        have hne : s ≠ "" := by
          intro h0; rw [h0] at hdata2; exact absurd hdata2 (by simp)
        have hM := monthThenYear_exact1 q1 hq1 c2 w2 hc2 hw2
          y1 y2 y3 y4 hy1 hy2 hy3 hy4
        have hmatch := matchDate_exact1 a ha c1 w1 hc1 hw1 q1
          (c2 :: (w2 ++ [y1, y2, y3, y4])) (digit_not_dateSep hq1) hM
        have hsd : searchDate s.data =
            some (digVal a, digVal q1, [y1, y2, y3, y4]) := by
          rw [hdata2]; exact searchDate_cons_of_match hmatch
        have hcanon := canon_false_of_sep s.data c1 hc1 (by rw [hdata2]; simp)
        have hstrip := strip_of_ends s.data (c1 :: (w1 ++ q1 :: c2 :: w2))
          a y1 y2 y3 y4 (by rw [hdata2]; simp) ha hy4
        rw [digitsVal_one, digitsVal_one]
        exact normalize_dob_of_match s hne hcanon hstrip hsd
      · rcases m with _ | ⟨q3, m⟩
        swap
        · simp only [List.length_cons] at hmlen; omega
        -- one-digit day, two-digit month
        have hq2 : q2.isDigit = true := hmd q2 (by simp)
        have hdata2 : s.data =
            a :: c1 :: (w1 ++ q1 :: (q2 :: (c2 :: (w2 ++ [y1, y2, y3, y4])))) := by
          rw [hdata]; simp
        have hne : s ≠ "" := by
          intro h0; rw [h0] at hdata2; exact absurd hdata2 (by simp)
        have hM := monthThenYear_exact2 q1 q2 hq1 hq2 c2 w2 hc2 hw2
          y1 y2 y3 y4 hy1 hy2 hy3 hy4
        have hmatch := matchDate_exact1 a ha c1 w1 hc1 hw1 q1
          (q2 :: (c2 :: (w2 ++ [y1, y2, y3, y4]))) (digit_not_dateSep hq1) hM
        have hsd : searchDate s.data =
            some (digVal a, 10 * digVal q1 + digVal q2, [y1, y2, y3, y4]) := by
          rw [hdata2]; exact searchDate_cons_of_match hmatch
        have hcanon := canon_false_of_sep s.data c1 hc1 (by rw [hdata2]; simp)
        have hstrip := strip_of_ends s.data (c1 :: (w1 ++ q1 :: q2 :: c2 :: w2))
          a y1 y2 y3 y4 (by rw [hdata2]; simp) ha hy4
        rw [digitsVal_one, digitsVal_two]
        exact normalize_dob_of_match s hne hcanon hstrip hsd
    · rcases d with _ | ⟨b2, d⟩
      swap
      · simp only [List.length_cons] at hdlen; omega
      have hb : b.isDigit = true := hdd b (by simp)
      rcases m with _ | ⟨q2, m⟩
      · -- two-digit day, one-digit month
        have hdata2 : s.data =
            a :: b :: (c1 :: (w1 ++ q1 :: (c2 :: (w2 ++ [y1, y2, y3, y4])))) := by
          rw [hdata]; simp
        have hne : s ≠ "" := by
          intro h0; rw [h0] at hdata2; exact absurd hdata2 (by simp)
        have hM := monthThenYear_exact1 q1 hq1 c2 w2 hc2 hw2
          y1 y2 y3 y4 hy1 hy2 hy3 hy4
        have hmatch := matchDate_exact2 a b ha hb c1 w1 hc1 hw1 q1
          (c2 :: (w2 ++ [y1, y2, y3, y4])) (digit_not_dateSep hq1) hM
        have hsd : searchDate s.data =
            some (10 * digVal a + digVal b, digVal q1, [y1, y2, y3, y4]) := by
          rw [hdata2]; exact searchDate_cons_of_match hmatch
        have hcanon := canon_false_of_sep s.data c1 hc1 (by rw [hdata2]; simp)
        have hstrip := strip_of_ends s.data (b :: c1 :: (w1 ++ q1 :: c2 :: w2))
          a y1 y2 y3 y4 (by rw [hdata2]; simp) ha hy4
        rw [digitsVal_two, digitsVal_one]
        exact normalize_dob_of_match s hne hcanon hstrip hsd
      · rcases m with _ | ⟨q3, m⟩
        swap
        · simp only [List.length_cons] at hmlen; omega
        -- two-digit day, two-digit month
        have hq2 : q2.isDigit = true := hmd q2 (by simp)
        have hdata2 : s.data =
            a :: b :: (c1 :: (w1 ++ q1 :: (q2 :: (c2 :: (w2 ++ [y1, y2, y3, y4]))))) := by
          rw [hdata]; simp
        have hne : s ≠ "" := by
          intro h0; rw [h0] at hdata2; exact absurd hdata2 (by simp)
        have hM := monthThenYear_exact2 q1 q2 hq1 hq2 c2 w2 hc2 hw2
          y1 y2 y3 y4 hy1 hy2 hy3 hy4
        have hmatch := matchDate_exact2 a b ha hb c1 w1 hc1 hw1 q1
          (q2 :: (c2 :: (w2 ++ [y1, y2, y3, y4]))) (digit_not_dateSep hq1) hM
        have hsd : searchDate s.data =
            some (10 * digVal a + digVal b, 10 * digVal q1 + digVal q2,
              [y1, y2, y3, y4]) := by
          rw [hdata2]; exact searchDate_cons_of_match hmatch
        have hcanon := canon_false_of_sep s.data c1 hc1 (by rw [hdata2]; simp)
        have hstrip := strip_of_ends s.data
          (b :: c1 :: (w1 ++ q1 :: q2 :: c2 :: w2))
          a y1 y2 y3 y4 (by rw [hdata2]; simp) ha hy4
        rw [digitsVal_two, digitsVal_two]
        exact normalize_dob_of_match s hne hcanon hstrip hsd
  · intro s hlen hdig
    have hne : s ≠ "" := by
      intro h0
      rw [h0] at hlen
      simp at hlen
    have hstrip : stripChars s.data = s.data := by
      rcases hl : s.data with _ | ⟨a, l⟩; · rw [hl] at hlen; simp at hlen
      rcases l with _ | ⟨b, l⟩; · rw [hl] at hlen; simp at hlen
      rcases l with _ | ⟨c, l⟩; · rw [hl] at hlen; simp at hlen
      rcases l with _ | ⟨d, l⟩; · rw [hl] at hlen; simp at hlen
      rcases l with _ | ⟨e, l⟩; · rw [hl] at hlen; simp at hlen
      rcases l with _ | ⟨f, l⟩; · rw [hl] at hlen; simp at hlen
      rcases l with _ | ⟨g, l⟩; · rw [hl] at hlen; simp at hlen
      rcases l with _ | ⟨i, l⟩; · rw [hl] at hlen; simp at hlen
      rcases l with _ | ⟨x, l⟩
      swap
      · rw [hl] at hlen; simp at hlen
      exact strip_of_ends _ [b, c, d] a e f g i rfl
        (by rw [hl] at hdig; exact hdig a (by simp))
        (by rw [hl] at hdig; exact hdig i (by simp))
    have hcanon : isCanonDob s.data = false := by
      by_contra hcc
      rw [Bool.not_eq_false] at hcc
      rw [isCanonDob_len hcc] at hlen
      exact absurd hlen (by norm_num)
    have hsd : searchDate s.data = none := searchDate_digits s.data hdig
    have h8 : isEightDigits s.data = true := by
      simp only [isEightDigits, Bool.and_eq_true, decide_eq_true_eq,
        List.all_eq_true]
      exact ⟨hlen, hdig⟩
    have heq := normalize_dob_eight s hne (by rw [hstrip]; exact hcanon)
      (by rw [hstrip]; exact hsd) (by rw [hstrip]; exact h8)
    rw [hstrip] at heq
    exact heq

/-- Witness for C6 amended at `"1/2/1990"`, every hypothesis discharged by
evaluation. -/
theorem normalize_dob_spec_witness :
    normalize_dob "1/2/1990" = "01-02-1990" := by
  have h := normalize_dob_spec.2.1 "1/2/1990" ['1'] ['/'] ['2'] ['/']
    ['1', '9', '9', '0'] (by decide) (by decide) (by decide) (by decide)
    (by decide) (by decide) (by decide) (by decide) (by decide) (by decide)
    (by decide) (by decide) (by decide)
  rw [h]
  decide
